import Mathlib

/-!
Verification of the agent-orchestration core of the govt_data_project backend
(`backend/app/agent.py`): the response parser (`safe_json_parse` and the
final-answer marker check), the tool registry and its catalog rendering
(`TOOLS`, `get_tool_definitions`), the data-retrieval tool handlers, and the
bounded reasoning/tool loop (`run_agent`).

The Python code is shallowly embedded: dictionaries become ordered field
lists, JSON values become the mutual inductive `Json` below, Python floats
arising from the data files become exact decimals, exceptions become
`Except`, and the two external effects — the language-model call and the
rainfall HTTP request — become explicit oracle inputs bundled in `Env`.
Every definition is structurally recursive, so concrete runs evaluate inside
the kernel.
-/

/-! ## Python string primitives used by agent.py -/

/-- The whitespace characters stripped by Python `str.strip()` (ASCII subset;
the data flowing through the agent is ASCII). -/
def isPyWs (c : Char) : Bool :=
  c = ' ' || c = '\t' || c = '\n' || c = '\r' || c = '\x0b' || c = '\x0c'

/-- Python `str.strip()`: drop leading and trailing whitespace. -/
def pyStrip (s : String) : String :=
  ⟨((s.data.dropWhile isPyWs).reverse.dropWhile isPyWs).reverse⟩

/-- Worker for Python `str.replace`: replace each non-overlapping occurrence
of `pat`, scanning left to right.  The fuel argument only feeds the
structural recursion; `pyReplaceList` passes more fuel than the scan can
consume. -/
def pyReplaceF : Nat → List Char → List Char → List Char → List Char
  | 0, _, _, s => s
  | _ + 1, _, _, [] => []
  | fuel + 1, pat, repl, c :: rest =>
    if pat.isPrefixOf (c :: rest) then
      repl ++ pyReplaceF fuel pat repl ((c :: rest).drop pat.length)
    else
      c :: pyReplaceF fuel pat repl rest

/-- Python `str.replace(pat, repl)` on char lists.  `agent.py` uses it with
`pat = "Final Answer:"` and `pat = "'"`; an empty pattern never occurs in the
code, and the model leaves the string unchanged in that case. -/
def pyReplaceList (pat repl s : List Char) : List Char :=
  if pat = [] then s else pyReplaceF (s.length + 1) pat repl s

/-- Python `str.replace` on `String`. -/
def pyReplace (s pat repl : String) : String :=
  ⟨pyReplaceList pat.data repl.data s.data⟩

/-- Does `pat` occur as a contiguous sublist of `s`? -/
def containsSubList (pat s : List Char) : Bool :=
  match s with
  | [] => pat.isPrefixOf ([] : List Char)
  | _ :: rest => pat.isPrefixOf s || containsSubList pat rest

/-- Python `pat in s` substring test. -/
def containsSubstr (s pat : String) : Bool :=
  containsSubList pat.data s.data

/-- Number of positions of `s` at which `pat` occurs (occurrences may
overlap; the catalog patterns counted below never do). -/
def countSubList (pat s : List Char) : Nat :=
  match s with
  | [] => if pat.isPrefixOf ([] : List Char) then 1 else 0
  | _ :: rest => (if pat.isPrefixOf s then 1 else 0) + countSubList pat rest

/-- Occurrence count of `pat` in `s`. -/
def countSubstr (s pat : String) : Nat :=
  countSubList pat.data s.data

/-- Index of the first position of `s` at which `pat` occurs. -/
def idxSubList (pat s : List Char) : Option Nat :=
  match s with
  | [] => if pat.isPrefixOf ([] : List Char) then some 0 else none
  | _ :: rest =>
    if pat.isPrefixOf s then some 0
    else (idxSubList pat rest).map (· + 1)

/-- Index of the first occurrence of `pat` in `s` (Python `str.find` for a
found pattern). -/
def idxSubstr (s pat : String) : Option Nat :=
  idxSubList pat.data s.data

/-- Python `str.lower()` (ASCII folding; the mirrored code applies it to
state and crop names from the data set). -/
def pyLower (s : String) : String :=
  ⟨s.data.map Char.toLower⟩

/-- `pandas.Series.str.contains(pat, case=False)` on a regex-LITERAL
pattern: case-insensitive containment.  Pandas compiles the pattern as a
regular expression (`regex=True` is the default), so this equals the Python
behaviour exactly when the pattern contains no regex metacharacter; a
metacharacter pattern matches differently or raises `re.error` (see
`reMeta`, `reOracle` and the `get_production_trend` model below, where that
raising path is modelled). -/
def strContainsCI (hay pat : String) : Bool :=
  containsSubstr (pyLower hay) (pyLower pat)

/-- The characters `re` treats specially (Python `re.escape` targets):
a pattern free of them is matched as a literal substring. -/
def reMeta (c : Char) : Bool :=
  c = '.' || c = '^' || c = '$' || c = '*' || c = '+' || c = '?' ||
    c = '{' || c = '}' || c = '[' || c = ']' || c = '\\' || c = '|' ||
    c = '(' || c = ')'

/-- A regex-literal pattern: no metacharacter, so `re.compile` succeeds and
`re.search` with `re.IGNORECASE` is case-insensitive containment. -/
def reLiteral (pat : String) : Bool :=
  pat.data.all (fun c => !reMeta c)

/-- One concrete compilation oracle (see `Env.rx`): literal patterns
compile to case-insensitive containment — exactly Python; any pattern
holding a metacharacter is mapped to the `re.error` text that Python
raises for `"("`, the malformed pattern the counterexample uses.  The
theorems only ever evaluate this oracle on literal patterns and on
`"("`, the classes on which it agrees with `re.compile`. -/
def reOracle : String → Except String (String → Bool) := fun pat =>
  if reLiteral pat then
    Except.ok (fun hay => containsSubstr (pyLower hay) (pyLower pat))
  else Except.error "missing ), unterminated subpattern at position 0"

/-! ## JSON values

`Json` models the JSON documents the agent exchanges with the model and the
tool-result dictionaries.  Python dicts keep insertion order, so objects are
ordered field lists.  Numbers are exact decimals `m * 10^(-e)`: every numeric
literal the parser reads and every rounded value the handlers emit is such a
decimal.  Arrays and objects carry their own list types so that all
recursion over values is structural. -/

mutual

inductive Json where
  | null : Json
  | bool (b : Bool) : Json
  | num (m : Int) (e : Nat) : Json
  | str (s : String) : Json
  | arr (elems : JsonList) : Json
  | obj (fields : JsonFields) : Json

inductive JsonList where
  | nil : JsonList
  | cons (head : Json) (tail : JsonList) : JsonList

inductive JsonFields where
  | nil : JsonFields
  | cons (key : String) (val : Json) (tail : JsonFields) : JsonFields

end

/-- Build a `JsonList` from a list. -/
def jlist : List Json → JsonList
  | [] => JsonList.nil
  | v :: vs => JsonList.cons v (jlist vs)

/-- Build a `JsonFields` from a key/value list (insertion order kept, as in a
Python dict literal). -/
def jfields : List (String × Json) → JsonFields
  | [] => JsonFields.nil
  | (k, v) :: kvs => JsonFields.cons k v (jfields kvs)

/-- Number of elements. -/
def JsonList.length : JsonList → Nat
  | JsonList.nil => 0
  | JsonList.cons _ xs => xs.length + 1

/-- Element at an index. -/
def JsonList.get? : JsonList → Nat → Option Json
  | JsonList.nil, _ => none
  | JsonList.cons x _, 0 => some x
  | JsonList.cons _ xs, i + 1 => xs.get? i

/-- Python `dict.get(k)`: the value bound to `k`, if any (first binding wins;
the dicts built by the code never repeat a key). -/
def dictGet : JsonFields → String → Option Json
  | JsonFields.nil, _ => none
  | JsonFields.cons k v fs, k' => if k = k' then some v else dictGet fs k'

/-- Python `k in dict`. -/
def dictHas (fs : JsonFields) (k : String) : Bool :=
  (dictGet fs k).isSome

mutual

def jsonBeq : Json → Json → Bool
  | Json.null, Json.null => true
  | Json.bool a, Json.bool b => a == b
  | Json.num m e, Json.num m' e' => m == m' && e == e'
  | Json.str a, Json.str b => a == b
  | Json.arr a, Json.arr b => jsonListBeq a b
  | Json.obj a, Json.obj b => jsonFieldsBeq a b
  | _, _ => false

def jsonListBeq : JsonList → JsonList → Bool
  | JsonList.nil, JsonList.nil => true
  | JsonList.cons x xs, JsonList.cons y ys => jsonBeq x y && jsonListBeq xs ys
  | _, _ => false

def jsonFieldsBeq : JsonFields → JsonFields → Bool
  | JsonFields.nil, JsonFields.nil => true
  | JsonFields.cons k v fs, JsonFields.cons k' v' fs' =>
    k == k' && jsonBeq v v' && jsonFieldsBeq fs fs'
  | _, _ => false

end

mutual

theorem jsonBeq_iff : ∀ a b : Json, jsonBeq a b = true ↔ a = b
  | Json.null, Json.null => by simp [jsonBeq]
  | Json.bool _, Json.bool _ => by simp [jsonBeq]
  | Json.num _ _, Json.num _ _ => by simp [jsonBeq]
  | Json.str _, Json.str _ => by simp [jsonBeq]
  | Json.arr a, Json.arr b => by simp [jsonBeq, jsonListBeq_iff a b]
  | Json.obj a, Json.obj b => by simp [jsonBeq, jsonFieldsBeq_iff a b]
  | Json.null, Json.bool _ | Json.null, Json.num _ _ | Json.null, Json.str _
  | Json.null, Json.arr _ | Json.null, Json.obj _
  | Json.bool _, Json.null | Json.bool _, Json.num _ _ | Json.bool _, Json.str _
  | Json.bool _, Json.arr _ | Json.bool _, Json.obj _
  | Json.num _ _, Json.null | Json.num _ _, Json.bool _ | Json.num _ _, Json.str _
  | Json.num _ _, Json.arr _ | Json.num _ _, Json.obj _
  | Json.str _, Json.null | Json.str _, Json.bool _ | Json.str _, Json.num _ _
  | Json.str _, Json.arr _ | Json.str _, Json.obj _
  | Json.arr _, Json.null | Json.arr _, Json.bool _ | Json.arr _, Json.num _ _
  | Json.arr _, Json.str _ | Json.arr _, Json.obj _
  | Json.obj _, Json.null | Json.obj _, Json.bool _ | Json.obj _, Json.num _ _
  | Json.obj _, Json.str _ | Json.obj _, Json.arr _ => by simp [jsonBeq]

theorem jsonListBeq_iff : ∀ a b : JsonList, jsonListBeq a b = true ↔ a = b
  | JsonList.nil, JsonList.nil => by simp [jsonListBeq]
  | JsonList.cons x xs, JsonList.cons y ys => by
    simp [jsonListBeq, jsonBeq_iff x y, jsonListBeq_iff xs ys]
  | JsonList.nil, JsonList.cons _ _ => by simp [jsonListBeq]
  | JsonList.cons _ _, JsonList.nil => by simp [jsonListBeq]

theorem jsonFieldsBeq_iff : ∀ a b : JsonFields, jsonFieldsBeq a b = true ↔ a = b
  | JsonFields.nil, JsonFields.nil => by simp [jsonFieldsBeq]
  | JsonFields.cons k v fs, JsonFields.cons k' v' fs' => by
    simp [jsonFieldsBeq, jsonBeq_iff v v', jsonFieldsBeq_iff fs fs', and_assoc]
  | JsonFields.nil, JsonFields.cons _ _ _ => by simp [jsonFieldsBeq]
  | JsonFields.cons _ _ _, JsonFields.nil => by simp [jsonFieldsBeq]

end

instance : DecidableEq Json := fun a b => decidable_of_iff _ (jsonBeq_iff a b)

instance : DecidableEq JsonList := fun a b => decidable_of_iff _ (jsonListBeq_iff a b)

instance : DecidableEq JsonFields := fun a b =>
  decidable_of_iff _ (jsonFieldsBeq_iff a b)

/-! ## JSON printing (the shape `json.dumps` produces)

`json.dumps` with its default separators prints `", "` between items and
`": "` between a key and a value; `run_agent` passes `ensure_ascii=False`, so
characters outside ASCII are written literally and only `"`, `\\` and control
characters are escaped. -/

/-- Hex digit for `n < 16` (lower case, as `json.dumps` writes them). -/
def hexDigitCh (n : Nat) : Char :=
  if n < 10 then Char.ofNat (48 + n) else Char.ofNat (87 + n)

/-- Escape one character of a JSON string the way `json.dumps` does:
quote and backslash get a backslash, the named control characters get their
short escapes, remaining control characters get `\u00XX`, and everything else
is written literally. -/
def escapeChar (c : Char) : List Char :=
  if c = '"' then ['\\', '"']
  else if c = '\\' then ['\\', '\\']
  else if c = '\n' then ['\\', 'n']
  else if c = '\t' then ['\\', 't']
  else if c = '\r' then ['\\', 'r']
  else if c = '\x08' then ['\\', 'b']
  else if c = '\x0c' then ['\\', 'f']
  else if c.toNat < 32 then
    ['\\', 'u', '0', '0', hexDigitCh (c.toNat / 16), hexDigitCh (c.toNat % 16)]
  else [c]

/-- Escape a whole string body. -/
def escapeChars (s : List Char) : List Char :=
  s.flatMap escapeChar

/-- Worker for `natDigits`; the fuel argument only feeds the structural
recursion and `natDigits` passes more than the digit count. -/
def natDigitsF : Nat → Nat → List Char
  | 0, _ => []
  | fuel + 1, n =>
    if n < 10 then [Nat.digitChar n]
    else natDigitsF fuel (n / 10) ++ [Nat.digitChar (n % 10)]

/-- Decimal digits of a natural number, most significant first. -/
def natDigits (n : Nat) : List Char :=
  natDigitsF (n + 1) n

/-- Digits of `n` left-padded with zeros to width `w`. -/
def padDigits (w : Nat) (n : Nat) : List Char :=
  List.replicate (w - (natDigits n).length) '0' ++ natDigits n

/-- Print the decimal `m * 10^(-e)`: an integer when `e = 0`, otherwise with
exactly `e` digits after the point (the shape `json.dumps` gives the rounded
floats the handlers produce). -/
def renderNum (m : Int) (e : Nat) : List Char :=
  (if m < 0 then ['-'] else []) ++
    (if e = 0 then natDigits m.natAbs
     else natDigits (m.natAbs / 10 ^ e) ++ '.' :: padDigits e (m.natAbs % 10 ^ e))

/-- One `"key": value` member. -/
def renderKey (k : String) : List Char :=
  '"' :: escapeChars k.data ++ '"' :: ':' :: ' ' :: ([] : List Char)

mutual

/-- Characters of the JSON text for a value, compact, with `json.dumps`
default separators. -/
def renderChars : Json → List Char
  | Json.null => ['n', 'u', 'l', 'l']
  | Json.bool true => ['t', 'r', 'u', 'e']
  | Json.bool false => ['f', 'a', 'l', 's', 'e']
  | Json.num m e => renderNum m e
  | Json.str s => '"' :: (escapeChars s.data ++ ['"'])
  | Json.arr xs => '[' :: (renderElems xs ++ [']'])
  | Json.obj fs => '{' :: (renderMembers fs ++ ['}'])

/-- Array body: elements separated by `", "`. -/
def renderElems : JsonList → List Char
  | JsonList.nil => []
  | JsonList.cons x xs => renderChars x ++ renderElemsTail xs

/-- Continuation of an array body after the first element. -/
def renderElemsTail : JsonList → List Char
  | JsonList.nil => []
  | JsonList.cons x xs => ',' :: ' ' :: (renderChars x ++ renderElemsTail xs)

/-- Object body: `"key": value` members separated by `", "`. -/
def renderMembers : JsonFields → List Char
  | JsonFields.nil => []
  | JsonFields.cons k v fs =>
    renderKey k ++ renderChars v ++ renderMembersTail fs

/-- Continuation of an object body after the first member. -/
def renderMembersTail : JsonFields → List Char
  | JsonFields.nil => []
  | JsonFields.cons k v fs =>
    ',' :: ' ' :: (renderKey k ++ renderChars v ++ renderMembersTail fs)

end

/-- `json.dumps(v, ensure_ascii=False)`. -/
def jsonDumps (v : Json) : String :=
  ⟨renderChars v⟩

/-! ## JSON parsing (the fragment of `json.loads` the agent relies on)

`json.loads` is modelled as a recursive-descent reader over the characters of
the sliced text: strict mode, so unescaped control characters in strings are
rejected and only the standard escapes are read.  Structural recursion is fed
by a fuel argument; `jsonParse` supplies fuel larger than the input can
consume, so fuel exhaustion is unreachable on any input the parser accepts. -/

/-- JSON inter-token whitespace accepted by `json.loads`. -/
def isJsonWs (c : Char) : Bool :=
  c = ' ' || c = '\t' || c = '\n' || c = '\r'

/-- Drop leading JSON whitespace. -/
def skipWs (cs : List Char) : List Char :=
  cs.dropWhile isJsonWs

/-- Prepend a character to the string part of a partial parse. -/
def mapCons (c : Char) (o : Option (List Char × List Char)) :
    Option (List Char × List Char) :=
  o.map (fun p => (c :: p.1, p.2))

/-- Value of a hex digit, if the character is one. -/
def hexVal (c : Char) : Option Nat :=
  if '0' ≤ c ∧ c ≤ '9' then some (c.toNat - 48)
  else if 'a' ≤ c ∧ c ≤ 'f' then some (c.toNat - 87)
  else if 'A' ≤ c ∧ c ≤ 'F' then some (c.toNat - 55)
  else none

/-- Value of a four-hex-digit escape. -/
def hex4 (a b c d : Char) : Option Nat :=
  match hexVal a, hexVal b, hexVal c, hexVal d with
  | some x, some y, some z, some w => some (((x * 16 + y) * 16 + z) * 16 + w)
  | _, _, _, _ => none

/-- Read a JSON string body after the opening quote: the decoded characters
and the rest of the input after the closing quote. -/
def parseStringBody : List Char → Option (List Char × List Char)
  | [] => none
  | c :: rest =>
    if c = '"' then some ([], rest)
    else if c = '\\' then
      match rest with
      | [] => none
      | e :: t =>
        if e = '"' then mapCons '"' (parseStringBody t)
        else if e = '\\' then mapCons '\\' (parseStringBody t)
        else if e = '/' then mapCons '/' (parseStringBody t)
        else if e = 'n' then mapCons '\n' (parseStringBody t)
        else if e = 't' then mapCons '\t' (parseStringBody t)
        else if e = 'r' then mapCons '\r' (parseStringBody t)
        else if e = 'b' then mapCons '\x08' (parseStringBody t)
        else if e = 'f' then mapCons '\x0c' (parseStringBody t)
        else if e = 'u' then
          match t with
          | a :: b :: c2 :: d :: t2 =>
            match hex4 a b c2 d with
            | some n => mapCons (Char.ofNat n) (parseStringBody t2)
            | none => none
          | _ => none
        else none
    else if c.toNat < 32 then none
    else mapCons c (parseStringBody rest)
termination_by structural cs => cs

/-- Leading run of decimal digits and the rest. -/
def spanDigits (cs : List Char) : List Char × List Char :=
  (cs.takeWhile Char.isDigit, cs.dropWhile Char.isDigit)

/-- Numeric value of a digit run, most significant first. -/
def digitsToNat (ds : List Char) : Nat :=
  ds.foldl (fun a c => a * 10 + (c.toNat - 48)) 0

/-- Apply an exponent-part digit run to an unsigned decimal `(n, e)`
(value `n * 10^(-e)`): a positive exponent shifts the mantissa up, a negative
one deepens the fractional part. -/
def parseExpPart (n e : Nat) (cs : List Char) :
    Option ((Nat × Nat) × List Char) :=
  let (negExp, cs1) :=
    match cs with
    | '+' :: t => (false, t)
    | '-' :: t => (true, t)
    | _ => (false, cs)
  match spanDigits cs1 with
  | ([], _) => none
  | (ds, rest) =>
    let k := digitsToNat ds
    if negExp then some ((n, e + k), rest)
    else if k ≥ e then some ((n * 10 ^ (k - e), 0), rest)
    else some ((n, e - k), rest)

/-- Read an optional exponent after the significand. -/
def parseExpOpt (n e : Nat) (cs : List Char) :
    Option ((Nat × Nat) × List Char) :=
  match cs with
  | c :: t => if c = 'e' ∨ c = 'E' then parseExpPart n e t else some ((n, e), cs)
  | [] => some ((n, e), [])

/-- Read an unsigned JSON number: integer digits, an optional fraction, an
optional exponent. -/
def parseNumAbs (cs : List Char) : Option ((Nat × Nat) × List Char) :=
  let p := spanDigits cs
  if p.1 = [] then none
  else
    match p.2 with
    | '.' :: t =>
      let q := spanDigits t
      if q.1 = [] then none
      else parseExpOpt (digitsToNat (p.1 ++ q.1)) q.1.length q.2
    | rest => parseExpOpt (digitsToNat p.1) 0 rest

/-- Read a JSON number with its optional leading minus sign. -/
def parseNumber (cs : List Char) : Option (Json × List Char) :=
  match cs with
  | [] => none
  | c :: t =>
    if c = '-' then
      (parseNumAbs t).map (fun p => (Json.num (-(p.1.1 : Int)) p.1.2, p.2))
    else
      (parseNumAbs (c :: t)).map (fun p => (Json.num (p.1.1 : Int) p.1.2, p.2))

mutual

/-- Read one JSON value.  The input must start at the value (no leading
whitespace); the returned rest starts right after the value. -/
def parseVal : Nat → List Char → Option (Json × List Char)
  | 0, _ => none
  | fuel + 1, cs =>
    match cs with
    | [] => none
    | c :: rest =>
      if c = '{' then
        match skipWs rest with
        | '}' :: rest2 => some (Json.obj JsonFields.nil, rest2)
        | rest2 =>
          match parseMembers fuel rest2 with
          | some (kvs, rest3) => some (Json.obj kvs, rest3)
          | none => none
      else if c = '[' then
        match skipWs rest with
        | ']' :: rest2 => some (Json.arr JsonList.nil, rest2)
        | rest2 =>
          match parseElems fuel rest2 with
          | some (vs, rest3) => some (Json.arr vs, rest3)
          | none => none
      else if c = '"' then
        match parseStringBody rest with
        | some (s, rest2) => some (Json.str ⟨s⟩, rest2)
        | none => none
      else if c = 't' then
        match rest with
        | 'r' :: 'u' :: 'e' :: rest2 => some (Json.bool true, rest2)
        | _ => none
      else if c = 'f' then
        match rest with
        | 'a' :: 'l' :: 's' :: 'e' :: rest2 => some (Json.bool false, rest2)
        | _ => none
      else if c = 'n' then
        match rest with
        | 'u' :: 'l' :: 'l' :: rest2 => some (Json.null, rest2)
        | _ => none
      else parseNumber (c :: rest)

/-- Read the elements of a non-empty array, positioned at the first element;
consumes the closing bracket. -/
def parseElems : Nat → List Char → Option (JsonList × List Char)
  | 0, _ => none
  | fuel + 1, cs =>
    match parseVal fuel cs with
    | none => none
    | some (v, rest) =>
      match skipWs rest with
      | ',' :: rest2 =>
        match parseElems fuel (skipWs rest2) with
        | some (vs, rest3) => some (JsonList.cons v vs, rest3)
        | none => none
      | ']' :: rest2 => some (JsonList.cons v JsonList.nil, rest2)
      | _ => none

/-- Read the members of a non-empty object, positioned at the first key;
consumes the closing brace. -/
def parseMembers : Nat → List Char → Option (JsonFields × List Char)
  | 0, _ => none
  | fuel + 1, cs =>
    match cs with
    | '"' :: rest =>
      match parseStringBody rest with
      | none => none
      | some (k, rest2) =>
        match skipWs rest2 with
        | ':' :: rest3 =>
          match parseVal fuel (skipWs rest3) with
          | none => none
          | some (v, rest4) =>
            match skipWs rest4 with
            | ',' :: rest5 =>
              match parseMembers fuel (skipWs rest5) with
              | some (kvs, rest6) => some (JsonFields.cons ⟨k⟩ v kvs, rest6)
              | none => none
            | '}' :: rest5 => some (JsonFields.cons ⟨k⟩ v JsonFields.nil, rest5)
            | _ => none
        | _ => none
    | _ => none

end

/-- `json.loads`: skip surrounding whitespace, read one value, require the
input to be exhausted.  The fuel bound exceeds what reading `cs` can use. -/
def jsonParse (cs : List Char) : Option Json :=
  match parseVal (cs.length + 1) (skipWs cs) with
  | some (v, rest) => if skipWs rest = [] then some v else none
  | none => none

/-! ## Round-trip groundwork: digits and numbers -/

theorem digitChar_isDigit {k : Nat} (h : k < 10) :
    (Nat.digitChar k).isDigit = true := by
  interval_cases k <;> decide

theorem digitChar_toNat {k : Nat} (h : k < 10) :
    (Nat.digitChar k).toNat = 48 + k := by
  interval_cases k <;> decide

theorem natDigitsF_irrel (f : Nat) :
    ∀ (f' n : Nat), n < f → n < f' → natDigitsF f n = natDigitsF f' n := by
  induction f with
  | zero => intro f' n h _; omega
  | succ f ih =>
    intro f' n h h'
    cases f' with
    | zero => omega
    | succ f' =>
      show (if n < 10 then [Nat.digitChar n]
          else natDigitsF f (n / 10) ++ [Nat.digitChar (n % 10)]) =
        (if n < 10 then [Nat.digitChar n]
          else natDigitsF f' (n / 10) ++ [Nat.digitChar (n % 10)])
      by_cases h10 : n < 10
      · rw [if_pos h10, if_pos h10]
      · rw [if_neg h10, if_neg h10, ih f' (n / 10) (by omega) (by omega)]

theorem natDigits_eq (n : Nat) :
    natDigits n = if n < 10 then [Nat.digitChar n]
      else natDigits (n / 10) ++ [Nat.digitChar (n % 10)] := by
  show (if n < 10 then [Nat.digitChar n]
      else natDigitsF n (n / 10) ++ [Nat.digitChar (n % 10)]) = _
  by_cases h10 : n < 10
  · rw [if_pos h10, if_pos h10]
  · rw [if_neg h10, if_neg h10,
      natDigitsF_irrel n (n / 10 + 1) (n / 10) (by omega) (by omega)]
    rfl

theorem natDigits_ne_nil (n : Nat) : natDigits n ≠ [] := by
  rw [natDigits_eq]
  split <;> simp

theorem natDigits_isDigit (n : Nat) : ∀ c ∈ natDigits n, c.isDigit = true := by
  induction n using Nat.strong_induction_on with
  | _ n ih =>
    rw [natDigits_eq]
    by_cases h : n < 10
    · simp only [if_pos h, List.mem_singleton]
      rintro c rfl
      exact digitChar_isDigit h
    · simp only [if_neg h, List.mem_append, List.mem_singleton]
      rintro c (hc | rfl)
      · exact ih (n / 10) (by omega) c hc
      · exact digitChar_isDigit (by omega)

theorem digitsToNat_foldl (ys : List Char) (a : Nat) :
    ys.foldl (fun a c => a * 10 + (c.toNat - 48)) a =
      a * 10 ^ ys.length + digitsToNat ys := by
  induction ys generalizing a with
  | nil => simp [digitsToNat]
  | cons c ys ih =>
    simp only [List.foldl_cons, List.length_cons, digitsToNat, Nat.zero_mul,
      Nat.zero_add]
    rw [ih, ih (c.toNat - 48)]
    ring

theorem digitsToNat_append (xs ys : List Char) :
    digitsToNat (xs ++ ys) = digitsToNat xs * 10 ^ ys.length + digitsToNat ys := by
  have h := digitsToNat_foldl ys (digitsToNat xs)
  unfold digitsToNat at h ⊢
  rw [List.foldl_append]
  exact h

theorem digitsToNat_natDigits (n : Nat) : digitsToNat (natDigits n) = n := by
  induction n using Nat.strong_induction_on with
  | _ n ih =>
    rw [natDigits_eq]
    by_cases h : n < 10
    · simp [if_pos h, digitsToNat, digitChar_toNat h]
    · rw [if_neg h, digitsToNat_append, ih (n / 10) (by omega)]
      have h10 : (n % 10) < 10 := by omega
      simp [digitsToNat, digitChar_toNat h10]
      omega

theorem digitsToNat_replicate_zero (z : Nat) (ds : List Char) :
    digitsToNat (List.replicate z '0' ++ ds) = digitsToNat ds := by
  induction z with
  | zero => simp
  | succ z ih =>
    rw [List.replicate_succ]
    simpa [digitsToNat] using ih

theorem natDigits_length_le {k e : Nat} (he : 0 < e) (h : k < 10 ^ e) :
    (natDigits k).length ≤ e := by
  induction k using Nat.strong_induction_on generalizing e with
  | _ k ih =>
    rw [natDigits_eq]
    by_cases h10 : k < 10
    · simp only [if_pos h10, List.length_singleton]
      omega
    · simp only [if_neg h10, List.length_append, List.length_singleton]
      have he1 : 1 < e := by
        by_contra hc
        have : e = 1 := by omega
        subst this
        simp at h
        omega
      have hdiv : k / 10 < 10 ^ (e - 1) := by
        have hpow : 10 ^ e = 10 ^ (e - 1) * 10 := by
          conv_lhs => rw [show e = (e - 1) + 1 by omega]
          ring
        rw [hpow] at h
        omega
      have := ih (k / 10) (by omega) (by omega) hdiv
      omega
/-- A digit character is none of the structural characters the parser
branches on. -/
theorem isDigit_ne {c : Char} (h : c.isDigit = true) (d : Char)
    (hd : d.isDigit = false) : c ≠ d := by
  rintro rfl
  rw [h] at hd
  cases hd

theorem isDigit_not_ws {c : Char} (h : c.isDigit = true) : isJsonWs c = false := by
  rw [isJsonWs]
  have h1 := isDigit_ne h ' ' (by decide)
  have h2 := isDigit_ne h '\t' (by decide)
  have h3 := isDigit_ne h '\n' (by decide)
  have h4 := isDigit_ne h '\r' (by decide)
  simp [h1, h2, h3, h4]

/-- The head of the remaining input is not a digit (so a digit run has
ended). -/
def headNotDigit : List Char → Prop
  | [] => True
  | c :: _ => c.isDigit = false

theorem takeWhile_digits (ds rest : List Char)
    (hds : ∀ c ∈ ds, c.isDigit = true) (hrest : headNotDigit rest) :
    (ds ++ rest).takeWhile Char.isDigit = ds ∧
      (ds ++ rest).dropWhile Char.isDigit = rest := by
  induction ds with
  | nil =>
    simp only [List.nil_append]
    cases rest with
    | nil => simp
    | cons c t =>
      have : c.isDigit = false := hrest
      simp [List.takeWhile, List.dropWhile, this]
  | cons c ds ih =>
    have hc : c.isDigit = true := hds c (by simp)
    have := ih (fun x hx => hds x (by simp [hx]))
    simp [List.takeWhile, List.dropWhile, hc, this.1, this.2]

theorem spanDigits_append (ds rest : List Char)
    (hds : ∀ c ∈ ds, c.isDigit = true) (hrest : headNotDigit rest) :
    spanDigits (ds ++ rest) = (ds, rest) := by
  have := takeWhile_digits ds rest hds hrest
  simp [spanDigits, this.1, this.2]

/-- After a complete rendered number, the input may only continue with a
character that cannot extend the number. -/
def numBoundary : List Char → Prop
  | [] => True
  | c :: _ => c.isDigit = false ∧ c ≠ '.' ∧ c ≠ 'e' ∧ c ≠ 'E'

theorem parseExpOpt_boundary (n e : Nat) (rest : List Char)
    (hb : numBoundary rest) : parseExpOpt n e rest = some ((n, e), rest) := by
  cases rest with
  | nil => rfl
  | cons c t =>
    obtain ⟨-, -, he, hE⟩ := hb
    simp [parseExpOpt, he, hE]

theorem padDigits_length {e k : Nat} (he : 0 < e) (hk : k < 10 ^ e) :
    (padDigits e k).length = e := by
  have := natDigits_length_le he hk
  simp [padDigits]
  omega

theorem padDigits_isDigit (e k : Nat) : ∀ c ∈ padDigits e k, c.isDigit = true := by
  intro c hc
  rw [padDigits, List.mem_append] at hc
  rcases hc with hc | hc
  · rw [List.eq_of_mem_replicate hc]
    decide
  · exact natDigits_isDigit k c hc

theorem digitsToNat_padDigits (e k : Nat) : digitsToNat (padDigits e k) = k := by
  rw [padDigits, digitsToNat_replicate_zero, digitsToNat_natDigits]


/-- Reading back an unsigned rendered decimal. -/
theorem parseNumAbs_render (n e : Nat) (rest : List Char) (hb : numBoundary rest) :
    parseNumAbs
      ((if e = 0 then natDigits n
        else natDigits (n / 10 ^ e) ++ '.' :: padDigits e (n % 10 ^ e)) ++ rest) =
      some ((n, e), rest) := by
  have hrestnd : headNotDigit rest := by
    cases rest with
    | nil => trivial
    | cons c t => exact hb.1
  by_cases he : e = 0
  · subst he
    rw [if_pos rfl, parseNumAbs]
    simp only [spanDigits_append (natDigits n) rest (natDigits_isDigit n) hrestnd,
      if_neg (natDigits_ne_nil n)]
    cases rest with
    | nil =>
      rw [digitsToNat_natDigits]
      exact parseExpOpt_boundary n 0 [] trivial
    | cons c t =>
      have hdot : c ≠ '.' := hb.2.1
      split
      · next heq => exact absurd (List.cons_eq_cons.mp heq).1 hdot
      · rw [digitsToNat_natDigits]
        exact parseExpOpt_boundary n 0 _ hb
  · have hepos : 0 < e := Nat.pos_of_ne_zero he
    have hmod : n % 10 ^ e < 10 ^ e := Nat.mod_lt _ (Nat.pow_pos (by omega))
    rw [if_neg he, List.append_assoc, List.cons_append, parseNumAbs]
    simp only [spanDigits_append (natDigits (n / 10 ^ e))
      ('.' :: (padDigits e (n % 10 ^ e) ++ rest)) (natDigits_isDigit _)
      (by simp [headNotDigit]), if_neg (natDigits_ne_nil _)]
    have hpadlen := padDigits_length hepos hmod
    have hpadne : padDigits e (n % 10 ^ e) ≠ [] := by
      intro hnil
      rw [hnil] at hpadlen
      simp at hpadlen
      omega
    simp only [spanDigits_append (padDigits e (n % 10 ^ e)) rest
      (padDigits_isDigit e _) hrestnd, if_neg hpadne]
    rw [digitsToNat_append, digitsToNat_padDigits, digitsToNat_natDigits, hpadlen,
      parseExpOpt_boundary _ _ _ hb, Nat.div_add_mod']

/-! ## Round-trip groundwork: strings -/

theorem hexVal_hexDigitCh {k : Nat} (h : k < 16) : hexVal (hexDigitCh k) = some k := by
  interval_cases k <;> decide

theorem escapeChars_nil : escapeChars [] = [] := rfl

theorem escapeChars_cons (c : Char) (s : List Char) :
    escapeChars (c :: s) = escapeChar c ++ escapeChars s := by
  simp [escapeChars]

/-- Reading back an escaped string body: the original characters return and
the input resumes after the closing quote. -/
theorem parseStringBody_escape (s rest : List Char) :
    parseStringBody (escapeChars s ++ '"' :: rest) = some (s, rest) := by
  induction s with
  | nil =>
    rw [escapeChars_nil, List.nil_append, parseStringBody.eq_def]
    simp
  | cons c s ih =>
    rw [escapeChars_cons, List.append_assoc]
    by_cases h1 : c = '"'
    · subst h1
      rw [show escapeChar '"' = ['\\', '"'] by decide]
      simp only [List.cons_append, List.nil_append]
      rw [parseStringBody.eq_def]
      simp [mapCons, ih]
    by_cases h2 : c = '\\'
    · subst h2
      rw [show escapeChar '\\' = ['\\', '\\'] by decide]
      simp only [List.cons_append, List.nil_append]
      rw [parseStringBody.eq_def]
      simp [mapCons, ih]
    by_cases h3 : c = '\n'
    · subst h3
      rw [show escapeChar '\n' = ['\\', 'n'] by decide]
      simp only [List.cons_append, List.nil_append]
      rw [parseStringBody.eq_def]
      simp [mapCons, ih]
    by_cases h4 : c = '\t'
    · subst h4
      rw [show escapeChar '\t' = ['\\', 't'] by decide]
      simp only [List.cons_append, List.nil_append]
      rw [parseStringBody.eq_def]
      simp [mapCons, ih]
    by_cases h5 : c = '\r'
    · subst h5
      rw [show escapeChar '\r' = ['\\', 'r'] by decide]
      simp only [List.cons_append, List.nil_append]
      rw [parseStringBody.eq_def]
      simp [mapCons, ih]
    by_cases h6 : c = '\x08'
    · subst h6
      rw [show escapeChar '\x08' = ['\\', 'b'] by decide]
      simp only [List.cons_append, List.nil_append]
      rw [parseStringBody.eq_def]
      simp [mapCons, ih]
    by_cases h7 : c = '\x0c'
    · subst h7
      rw [show escapeChar '\x0c' = ['\\', 'f'] by decide]
      simp only [List.cons_append, List.nil_append]
      rw [parseStringBody.eq_def]
      simp [mapCons, ih]
    by_cases h8 : c.toNat < 32
    · have hdiv : c.toNat / 16 < 16 := by omega
      have hmod : c.toNat % 16 < 16 := by omega
      rw [escapeChar, if_neg h1, if_neg h2, if_neg h3, if_neg h4, if_neg h5,
        if_neg h6, if_neg h7, if_pos h8]
      simp only [List.cons_append, List.nil_append]
      rw [parseStringBody.eq_def]
      simp [hex4, hexVal_hexDigitCh hdiv, hexVal_hexDigitCh hmod, mapCons, ih,
        show hexVal '0' = some 0 by decide,
        show ((0 * 16 + 0) * 16 + c.toNat / 16) * 16 + c.toNat % 16 = c.toNat by
          omega,
        Char.ofNat_toNat]
      rw [Nat.div_add_mod' c.toNat 16, Char.ofNat_toNat]
    · rw [escapeChar, if_neg h1, if_neg h2, if_neg h3, if_neg h4, if_neg h5,
        if_neg h6, if_neg h7, if_neg h8]
      simp only [List.cons_append, List.nil_append]
      rw [parseStringBody.eq_def]
      simp [mapCons, ih, h1, h2, h8]

/-- The unsigned part of a rendered number starts with a digit. -/
theorem absRender_head (n e : Nat) :
    ∃ d t, (if e = 0 then natDigits n
      else natDigits (n / 10 ^ e) ++ '.' :: padDigits e (n % 10 ^ e)) = d :: t ∧
      d.isDigit = true := by
  by_cases he : e = 0
  · rw [if_pos he]
    cases hd : natDigits n with
    | nil => exact absurd hd (natDigits_ne_nil n)
    | cons d t =>
      exact ⟨d, t, rfl, natDigits_isDigit n d (hd ▸ List.mem_cons_self d t)⟩
  · rw [if_neg he]
    cases hd : natDigits (n / 10 ^ e) with
    | nil => exact absurd hd (natDigits_ne_nil _)
    | cons d t =>
      refine ⟨d, t ++ '.' :: padDigits e (n % 10 ^ e), by simp, ?_⟩
      exact natDigits_isDigit _ d (hd ▸ List.mem_cons_self d t)

theorem parseNumber_cons_neg (t : List Char) :
    parseNumber ('-' :: t) =
      (parseNumAbs t).map (fun p => (Json.num (-(p.1.1 : Int)) p.1.2, p.2)) := by
  rw [parseNumber.eq_def]
  simp

theorem parseNumber_cons_pos (c : Char) (hc : ¬c = '-') (t : List Char) :
    parseNumber (c :: t) =
      (parseNumAbs (c :: t)).map (fun p => (Json.num (p.1.1 : Int) p.1.2, p.2)) := by
  rw [parseNumber.eq_def]
  simp [hc]

/-- Reading back a rendered signed decimal. -/
theorem parseNumber_render (m : Int) (e : Nat) (rest : List Char)
    (hb : numBoundary rest) :
    parseNumber (renderNum m e ++ rest) = some (Json.num m e, rest) := by
  obtain ⟨d, t, hd, hdig⟩ := absRender_head m.natAbs e
  by_cases hm : m < 0
  · rw [renderNum, if_pos hm]
    simp only [List.cons_append, List.nil_append]
    rw [parseNumber_cons_neg, parseNumAbs_render m.natAbs e rest hb]
    simp only [Option.map_some']
    have : -(m.natAbs : Int) = m := by omega
    rw [this]
  · rw [renderNum, if_neg hm, List.nil_append]
    rw [hd, List.cons_append,
      parseNumber_cons_pos d (isDigit_ne hdig '-' (by decide)) _,
      ← List.cons_append, ← hd, parseNumAbs_render m.natAbs e rest hb]
    simp only [Option.map_some']
    have : (m.natAbs : Int) = m := by omega
    rw [this]

/-! ## Round-trip groundwork: heads, whitespace and fuel -/

/-- The first character of a rendered value is never whitespace and never a
closing bracket, so the parser positioned at a rendered value neither skips
into it nor mistakes it for the end of a container. -/
theorem renderChars_head (v : Json) :
    ∃ c t, renderChars v = c :: t ∧ isJsonWs c = false ∧ c ≠ ']' := by
  cases v with
  | null => exact ⟨'n', _, rfl, by decide, by decide⟩
  | bool b =>
    cases b
    · exact ⟨'f', _, rfl, by decide, by decide⟩
    · exact ⟨'t', _, rfl, by decide, by decide⟩
  | num m e =>
    obtain ⟨d, t, hd, hdig⟩ := absRender_head m.natAbs e
    by_cases hm : m < 0
    · refine ⟨'-', (if e = 0 then natDigits m.natAbs
        else natDigits (m.natAbs / 10 ^ e) ++ '.' :: padDigits e (m.natAbs % 10 ^ e)),
        ?_, by decide, by decide⟩
      rw [show renderChars (Json.num m e) = renderNum m e from rfl, renderNum,
        if_pos hm, List.singleton_append]
    · refine ⟨d, t, ?_, isDigit_not_ws hdig, isDigit_ne hdig ']' (by decide)⟩
      rw [show renderChars (Json.num m e) = renderNum m e from rfl, renderNum,
        if_neg hm, List.nil_append, hd]
  | str s => exact ⟨'"', _, rfl, by decide, by decide⟩
  | arr xs => exact ⟨'[', _, rfl, by decide, by decide⟩
  | obj fs => exact ⟨'{', _, rfl, by decide, by decide⟩

/-- Whitespace skipping does not move past the start of a rendered value. -/
theorem skipWs_render (v : Json) (r : List Char) :
    skipWs (renderChars v ++ r) = renderChars v ++ r := by
  obtain ⟨c, t, hc, hws, -⟩ := renderChars_head v
  rw [hc, List.cons_append, skipWs, List.dropWhile_cons]
  simp [hws]

mutual

/-- Fuel needed by `parseVal` to read a rendered value. -/
def fuelV : Json → Nat
  | Json.null => 1
  | Json.bool _ => 1
  | Json.num _ _ => 1
  | Json.str _ => 1
  | Json.arr xs => fuelL xs + 1
  | Json.obj fs => fuelF fs + 1

def fuelL : JsonList → Nat
  | JsonList.nil => 0
  | JsonList.cons x xs => max (fuelV x) (fuelL xs) + 1

def fuelF : JsonFields → Nat
  | JsonFields.nil => 0
  | JsonFields.cons _ v fs => max (fuelV v) (fuelF fs) + 1

end

theorem fuelV_pos (v : Json) : 1 ≤ fuelV v := by
  cases v <;> simp [fuelV]

theorem numBoundary_comma (t : List Char) : numBoundary (',' :: t) :=
  ⟨by decide, by decide, by decide, by decide⟩

theorem numBoundary_rbracket (t : List Char) : numBoundary (']' :: t) :=
  ⟨by decide, by decide, by decide, by decide⟩

theorem numBoundary_rbrace (t : List Char) : numBoundary ('}' :: t) :=
  ⟨by decide, by decide, by decide, by decide⟩

/-- The text following a value inside a rendered container starts with the
separator or the closing bracket, so it cannot extend a rendered number. -/
theorem numBoundary_elemsTail (xs : JsonList) (r : List Char) :
    numBoundary (renderElemsTail xs ++ ']' :: r) := by
  cases xs with
  | nil => exact numBoundary_rbracket r
  | cons y ys => exact numBoundary_comma _

theorem numBoundary_membersTail (fs : JsonFields) (r : List Char) :
    numBoundary (renderMembersTail fs ++ '}' :: r) := by
  cases fs with
  | nil => exact numBoundary_rbrace r
  | cons k v fs2 => exact numBoundary_comma _

theorem skipWs_cons_of_not_ws {c : Char} (h : isJsonWs c = false) (t : List Char) :
    skipWs (c :: t) = c :: t := by
  rw [skipWs, List.dropWhile_cons]
  simp [h]

theorem skipWs_space (t : List Char) : skipWs (' ' :: t) = skipWs t := by
  rw [skipWs, List.dropWhile_cons]
  simp [isJsonWs, skipWs]

theorem parseVal_lbrace (fuel : Nat) (cs : List Char) :
    parseVal (fuel + 1) ('{' :: cs) =
      match skipWs cs with
      | '}' :: rest2 => some (Json.obj JsonFields.nil, rest2)
      | rest2 =>
        match parseMembers fuel rest2 with
        | some (kvs, rest3) => some (Json.obj kvs, rest3)
        | none => none := by
  simp [parseVal]

theorem parseVal_lbracket (fuel : Nat) (cs : List Char) :
    parseVal (fuel + 1) ('[' :: cs) =
      match skipWs cs with
      | ']' :: rest2 => some (Json.arr JsonList.nil, rest2)
      | rest2 =>
        match parseElems fuel rest2 with
        | some (vs, rest3) => some (Json.arr vs, rest3)
        | none => none := by
  simp [parseVal]

theorem parseVal_quote (fuel : Nat) (cs : List Char) :
    parseVal (fuel + 1) ('"' :: cs) =
      match parseStringBody cs with
      | some (s, rest2) => some (Json.str ⟨s⟩, rest2)
      | none => none := by
  simp [parseVal]

theorem parseVal_to_number (fuel : Nat) (c : Char) (cs : List Char)
    (h1 : ¬c = '{') (h2 : ¬c = '[') (h3 : ¬c = '"') (h4 : ¬c = 't')
    (h5 : ¬c = 'f') (h6 : ¬c = 'n') :
    parseVal (fuel + 1) (c :: cs) = parseNumber (c :: cs) := by
  simp [parseVal, h1, h2, h3, h4, h5, h6]

mutual

/-- Completeness of the reader against the printer: reading a rendered value
returns that value and leaves exactly the trailing input, whenever the fuel
covers the value and the trailing input cannot extend a number. -/
theorem parseVal_render : ∀ (fuel : Nat) (v : Json) (rest : List Char),
    fuelV v ≤ fuel → numBoundary rest →
    parseVal fuel (renderChars v ++ rest) = some (v, rest)
  | 0, v, _ => by
    intro h _
    have := fuelV_pos v
    omega
  | fuel + 1, Json.null, rest => by
    intro _ _
    simp [renderChars, parseVal]
  | fuel + 1, Json.bool true, rest => by
    intro _ _
    simp [renderChars, parseVal]
  | fuel + 1, Json.bool false, rest => by
    intro _ _
    simp [renderChars, parseVal]
  | fuel + 1, Json.num m e, rest => by
    intro _ hb
    rw [show renderChars (Json.num m e) = renderNum m e from rfl]
    obtain ⟨d, t, hd, hdig⟩ := absRender_head m.natAbs e
    by_cases hm : m < 0
    · have hre : renderNum m e = '-' :: (if e = 0 then natDigits m.natAbs
          else natDigits (m.natAbs / 10 ^ e) ++ '.' ::
            padDigits e (m.natAbs % 10 ^ e)) := by
        rw [renderNum, if_pos hm, List.singleton_append]
      rw [hre, List.cons_append,
        parseVal_to_number fuel '-' _ (by decide) (by decide) (by decide)
          (by decide) (by decide) (by decide),
        ← List.cons_append, ← hre, parseNumber_render m e rest hb]
    · have hre : renderNum m e = (if e = 0 then natDigits m.natAbs
          else natDigits (m.natAbs / 10 ^ e) ++ '.' ::
            padDigits e (m.natAbs % 10 ^ e)) := by
        rw [renderNum, if_neg hm, List.nil_append]
      rw [hre, hd, List.cons_append,
        parseVal_to_number fuel d _ (isDigit_ne hdig '{' (by decide))
          (isDigit_ne hdig '[' (by decide)) (isDigit_ne hdig '"' (by decide))
          (isDigit_ne hdig 't' (by decide)) (isDigit_ne hdig 'f' (by decide))
          (isDigit_ne hdig 'n' (by decide)),
        ← List.cons_append, ← hd, ← hre, parseNumber_render m e rest hb]
  | fuel + 1, Json.str s, rest => by
    intro _ _
    rw [show renderChars (Json.str s) = '"' :: (escapeChars s.data ++ ['"'])
        from rfl, List.cons_append, parseVal_quote, List.append_assoc,
      List.singleton_append, parseStringBody_escape]
  | fuel + 1, Json.arr JsonList.nil, rest => by
    intro _ _
    rw [show renderChars (Json.arr JsonList.nil) = ['[', ']'] from rfl]
    simp only [List.cons_append, List.singleton_append]
    rw [parseVal_lbracket, skipWs_cons_of_not_ws (by decide)]
    simp
  | fuel + 1, Json.arr (JsonList.cons x xs), rest => by
    intro hf _
    have hS : renderChars (Json.arr (JsonList.cons x xs)) ++ rest
        = '[' :: (renderChars x ++ (renderElemsTail xs ++ ']' :: rest)) := by
      rw [show renderChars (Json.arr (JsonList.cons x xs))
          = '[' :: (renderElems (JsonList.cons x xs) ++ [']']) from rfl,
        show renderElems (JsonList.cons x xs)
          = renderChars x ++ renderElemsTail xs from rfl]
      simp [List.append_assoc]
    rw [hS, parseVal_lbracket, skipWs_render x _]
    obtain ⟨c, t, hc, -, hrb⟩ := renderChars_head x
    rw [hc, List.cons_append]
    split
    · next heq => exact absurd (List.cons_eq_cons.mp heq).1 hrb
    · rw [← List.cons_append, ← hc,
        parseElems_render fuel x xs rest (by simp [fuelV] at hf; omega)]
  | fuel + 1, Json.obj JsonFields.nil, rest => by
    intro _ _
    rw [show renderChars (Json.obj JsonFields.nil) = ['{', '}'] from rfl]
    simp only [List.cons_append, List.singleton_append]
    rw [parseVal_lbrace, skipWs_cons_of_not_ws (by decide)]
    simp
  | fuel + 1, Json.obj (JsonFields.cons k v fs), rest => by
    intro hf _
    have hkey : ∀ X : List Char, renderKey k ++ X
        = '"' :: (escapeChars k.data ++ '"' :: ':' :: ' ' :: X) := by
      intro X
      rw [renderKey]
      simp [List.append_assoc]
    have hS : renderChars (Json.obj (JsonFields.cons k v fs)) ++ rest
        = '{' :: (renderKey k ++ (renderChars v ++
            (renderMembersTail fs ++ '}' :: rest))) := by
      rw [show renderChars (Json.obj (JsonFields.cons k v fs))
          = '{' :: (renderMembers (JsonFields.cons k v fs) ++ ['}']) from rfl,
        show renderMembers (JsonFields.cons k v fs)
          = renderKey k ++ renderChars v ++ renderMembersTail fs from rfl]
      simp [List.append_assoc]
    rw [hS, parseVal_lbrace, hkey, skipWs_cons_of_not_ws (by decide)]
    split
    · next heq => exact absurd (List.cons_eq_cons.mp heq).1 (by decide)
    · rw [← hkey,
        parseMembers_render fuel k v fs rest (by simp [fuelV] at hf; omega)]
termination_by fuel => (fuel, 0)

/-- Reading the rendered elements of a non-empty array. -/
theorem parseElems_render : ∀ (fuel : Nat) (x : Json) (xs : JsonList)
    (rest : List Char), fuelL (JsonList.cons x xs) ≤ fuel →
    parseElems fuel (renderChars x ++ (renderElemsTail xs ++ ']' :: rest)) =
      some (JsonList.cons x xs, rest)
  | 0, x, xs, _ => by
    intro h
    simp [fuelL] at h
  | fuel + 1, x, xs, rest => by
    intro hf
    have hx : fuelV x ≤ fuel := by
      simp [fuelL] at hf
      omega
    cases xs with
    | nil =>
      simp only [parseElems, show renderElemsTail JsonList.nil = [] from rfl,
        List.nil_append]
      rw [parseVal_render fuel x (']' :: rest) hx (numBoundary_rbracket rest)]
      simp [skipWs_cons_of_not_ws (show isJsonWs ']' = false by decide)]
    | cons y ys =>
      have hrec := parseElems_render fuel y ys rest
        (by simp [fuelL] at hf ⊢; omega)
      simp only [parseElems,
        show renderElemsTail (JsonList.cons y ys)
          = ',' :: ' ' :: (renderChars y ++ renderElemsTail ys) from rfl,
        List.cons_append, List.append_assoc]
      rw [parseVal_render fuel x _ hx (numBoundary_comma _)]
      simp only [skipWs_cons_of_not_ws (show isJsonWs ',' = false by decide),
        skipWs_space, skipWs_render y _, hrec]
termination_by fuel => (fuel, 1)

/-- Reading the rendered members of a non-empty object. -/
theorem parseMembers_render : ∀ (fuel : Nat) (k : String) (v : Json)
    (fs : JsonFields) (rest : List Char), fuelF (JsonFields.cons k v fs) ≤ fuel →
    parseMembers fuel (renderKey k ++ (renderChars v ++
        (renderMembersTail fs ++ '}' :: rest))) =
      some (JsonFields.cons k v fs, rest)
  | 0, k, v, fs, _ => by
    intro h
    simp [fuelF] at h
  | fuel + 1, k, v, fs, rest => by
    intro hf
    have hv : fuelV v ≤ fuel := by
      simp [fuelF] at hf
      omega
    rw [show renderKey k ++ (renderChars v ++ (renderMembersTail fs ++ '}' :: rest))
        = '"' :: (escapeChars k.data ++ '"' ::
            (':' :: ' ' :: (renderChars v ++
              (renderMembersTail fs ++ '}' :: rest)))) from by
      rw [renderKey]
      simp [List.append_assoc]]
    simp only [parseMembers]
    rw [parseStringBody_escape k.data _]
    simp only [skipWs_cons_of_not_ws (show isJsonWs ':' = false by decide),
      skipWs_space, skipWs_render v _]
    rw [parseVal_render fuel v _ hv (numBoundary_membersTail fs rest)]
    cases fs with
    | nil =>
      simp [show renderMembersTail JsonFields.nil = [] from rfl,
        skipWs_cons_of_not_ws (show isJsonWs '}' = false by decide)]
    | cons k2 v2 fs2 =>
      have hrec := parseMembers_render fuel k2 v2 fs2 rest
        (by simp [fuelF] at hf ⊢; omega)
      rw [show renderMembersTail (JsonFields.cons k2 v2 fs2)
          = ',' :: ' ' :: (renderKey k2 ++ renderChars v2 ++
              renderMembersTail fs2) from rfl]
      simp only [List.cons_append, List.append_assoc]
      have hsw : skipWs (renderKey k2 ++ (renderChars v2 ++
            (renderMembersTail fs2 ++ '}' :: rest)))
          = renderKey k2 ++ (renderChars v2 ++
            (renderMembersTail fs2 ++ '}' :: rest)) := by
        rw [renderKey]
        simp only [List.cons_append]
        rw [skipWs_cons_of_not_ws (by decide)]
      simp only [skipWs_cons_of_not_ws (show isJsonWs ',' = false by decide),
        skipWs_space, hsw, hrec]
termination_by fuel => (fuel, 1)

end

mutual

/-- The fuel a value needs is at most the length of its rendering, so the
fuel `jsonParse` supplies always suffices for rendered input. -/
theorem fuelV_le_len : ∀ v : Json, fuelV v ≤ (renderChars v).length
  | Json.null => by simp [fuelV, renderChars]
  | Json.bool b => by cases b <;> simp [fuelV, renderChars]
  | Json.num m e => by
    obtain ⟨d, t, hd, -⟩ := absRender_head m.natAbs e
    rw [show renderChars (Json.num m e) = renderNum m e from rfl, renderNum, hd]
    simp only [fuelV, List.length_append, List.length_cons]
    omega
  | Json.str s => by simp [fuelV, renderChars]
  | Json.arr xs => by
    have := fuelL_le_len xs
    simp only [fuelV, renderChars, List.length_cons, List.length_append,
      List.length_singleton]
    omega
  | Json.obj fs => by
    have := fuelF_le_len fs
    simp only [fuelV, renderChars, List.length_cons, List.length_append,
      List.length_singleton]
    omega

theorem fuelL_le_len : ∀ xs : JsonList, fuelL xs ≤ (renderElems xs).length + 1
  | JsonList.nil => by simp [fuelL]
  | JsonList.cons x xs => by
    have h1 := fuelV_le_len x
    have h2 := fuelL_le_len xs
    cases xs with
    | nil =>
      simp only [fuelL, renderElems, renderElemsTail, List.length_append,
        List.length_nil] at *
      omega
    | cons y ys =>
      simp only [fuelL, renderElems, renderElemsTail, List.length_append,
        List.length_cons] at *
      omega

theorem fuelF_le_len : ∀ fs : JsonFields, fuelF fs ≤ (renderMembers fs).length + 1
  | JsonFields.nil => by simp [fuelF]
  | JsonFields.cons k v fs => by
    have h1 := fuelV_le_len v
    have h2 := fuelF_le_len fs
    cases fs with
    | nil =>
      simp only [fuelF, renderMembers, renderMembersTail, renderKey,
        List.length_append, List.length_cons, List.length_nil] at *
      omega
    | cons k2 v2 fs2 =>
      simp only [fuelF, renderMembers, renderMembersTail, renderKey,
        List.length_append, List.length_cons] at *
      omega

end

/-- Reading back a rendered document: `json.loads(json.dumps(v))` is `v`. -/
theorem jsonParse_render (v : Json) : jsonParse (renderChars v) = some v := by
  have h1 : skipWs (renderChars v) = renderChars v := by
    have := skipWs_render v []
    simpa using this
  have h2 : parseVal ((renderChars v).length + 1) (renderChars v) = some (v, []) := by
    have := parseVal_render ((renderChars v).length + 1) v []
      (le_trans (fuelV_le_len v) (by omega)) trivial
    simpa using this
  rw [jsonParse, h1, h2]
  simp [skipWs]

/-! ## `safe_json_parse`: slice between the braces, parse, one repair pass -/

/-- The slice `text[text.find("{") : text.rfind("}") + 1]` taken by
`safe_json_parse` when both braces are present: keep the suffix from the
first `{`, then within it keep the prefix up to the last `}`.  When the last
`}` precedes the first `{`, both Python's slice and this definition give the
empty list. -/
def braceSlice (cs : List Char) : List Char :=
  ((cs.dropWhile (fun c => c != '{')).reverse.dropWhile (fun c => c != '}')).reverse

/-- `safe_json_parse` from agent.py: find the first `{` and the last `}`
(no pair present raises, caught and rewrapped), parse the inclusive slice as
JSON, and on failure retry once with every single quote replaced by a double
quote; if that also fails, raise `ValueError` with the original text. -/
def safe_json_parse (text : String) : Except String Json :=
  let cs := text.data
  if cs.contains '{' && cs.contains '}' then
    let jtext := braceSlice cs
    match jsonParse jtext with
    | some v => Except.ok v
    | none =>
      match jsonParse (pyReplaceList ['\x27'] ['"'] jtext) with
      | some v => Except.ok v
      | none => Except.error ("Failed to parse JSON from LLM response: " ++ text)
  else Except.error ("Failed to parse JSON from LLM response: " ++ text)

theorem dropWhile_append_all {p : Char → Bool} {l : List Char}
    (h : ∀ c ∈ l, p c = true) (r : List Char) :
    (l ++ r).dropWhile p = r.dropWhile p := by
  induction l with
  | nil => rfl
  | cons c t ih =>
    rw [List.cons_append, List.dropWhile_cons, if_pos (h c (by simp))]
    exact ih (fun c hc => h c (by simp [hc]))

/-- Slicing a rendered object out of brace-free surrounding prose returns
exactly the rendered object. -/
theorem braceSlice_embed (pre body post : List Char)
    (hpre : '{' ∉ pre) (hpost : '}' ∉ post) :
    braceSlice (pre ++ ('{' :: (body ++ ['}'])) ++ post)
      = '{' :: (body ++ ['}']) := by
  rw [braceSlice, List.append_assoc,
    dropWhile_append_all (fun c hc => by
      simp only [bne_iff_ne, ne_eq, decide_eq_true_eq]
      rintro rfl
      exact hpre hc) _,
    List.cons_append, List.dropWhile_cons, if_neg (by simp)]
  have hrev : ('{' :: ((body ++ ['}']) ++ post)).reverse
      = post.reverse ++ ('}' :: (body.reverse ++ ['{'])) := by
    simp [List.reverse_cons, List.reverse_append, List.append_assoc]
  rw [hrev, dropWhile_append_all (fun c hc => by
      simp only [bne_iff_ne, ne_eq, decide_eq_true_eq]
      rintro rfl
      exact hpost (List.mem_reverse.mp hc)) _,
    List.dropWhile_cons, if_neg (by simp)]
  simp [List.reverse_cons, List.reverse_append]

/-- `safe_json_parse` recovers a JSON object rendered into surrounding prose,
provided the prose before it contains no `{` and the prose after it no `}`. -/
theorem safe_json_parse_embed (fields : JsonFields) (pre post : List Char)
    (hpre : '{' ∉ pre) (hpost : '}' ∉ post) :
    safe_json_parse ⟨pre ++ renderChars (Json.obj fields) ++ post⟩
      = Except.ok (Json.obj fields) := by
  have hR : renderChars (Json.obj fields)
      = '{' :: (renderMembers fields ++ ['}']) := rfl
  have hslice : braceSlice (pre ++ renderChars (Json.obj fields) ++ post)
      = renderChars (Json.obj fields) := by
    rw [hR]
    exact braceSlice_embed pre (renderMembers fields) post hpre hpost
  have hc : ((pre ++ renderChars (Json.obj fields) ++ post).contains '{'
      && (pre ++ renderChars (Json.obj fields) ++ post).contains '}') = true := by
    rw [hR]
    simp
  rw [safe_json_parse]
  simp only [show (⟨pre ++ renderChars (Json.obj fields) ++ post⟩ : String).data
      = pre ++ renderChars (Json.obj fields) ++ post from rfl, hc, if_true]
  rw [hslice, jsonParse_render]

/-! ## Data model for the tool layer

The agriculture dataframe and the rainfall API response are external data:
`get_agri_data` loads and cleans the CSV (column normalisation, numeric
coercion with zero fill, year extraction), and the rainfall handler issues an
HTTP request.  The model takes the cleaned rows and the network outcome as
inputs in `Env`.  Numeric cells are exact decimals `Dec` (the values the
float columns hold). -/

/-- An exact decimal `m * 10^(-e)`: the model of a Python float that came
from a decimal literal in the data or from rounding. -/
structure Dec where
  m : Int
  e : Nat
deriving DecidableEq

/-- Rational value of a decimal. -/
def Dec.toRat (d : Dec) : ℚ :=
  (d.m : ℚ) / 10 ^ d.e

/-- Decimal addition on a common scale. -/
def Dec.add (a b : Dec) : Dec :=
  ⟨a.m * 10 ^ (max a.e b.e - a.e) + b.m * 10 ^ (max a.e b.e - b.e), max a.e b.e⟩

/-- Python `sum` / pandas `.sum()` over a decimal column. -/
def Dec.sum (l : List Dec) : Dec :=
  l.foldl Dec.add ⟨0, 0⟩

/-- Python `round(x, 2)` as an integer count of hundredths: round half to
even at two decimal places. -/
def ratRound2 (q : ℚ) : Int :=
  let x := q * 100
  let f := ⌊x⌋
  if x - f < 1 / 2 then f
  else if 1 / 2 < x - f then f + 1
  else if 2 ∣ f then f else f + 1

/-- Python `round(x, 2)` on a decimal, as a JSON number. -/
def round2Json (q : ℚ) : Json :=
  Json.num (ratRound2 q) 2

/-- One cleaned row of the agriculture CSV, as `get_agri_data` produces it. -/
structure AgriRow where
  state : String
  district : String
  crop : String
  year : Int
  production_tonnes : Dec

/-- One record of the rainfall API response after the dataframe cleaning in
`get_live_rainfall_data`: the subdivision name, the coerced year (`none`
models a non-numeric cell), and the twelve monthly values after numeric
coercion and zero fill. -/
structure RainRecord where
  subdivision : String
  year : Option Int
  months : List Dec

/-- The external world of one `run_agent` invocation: the reasoning engine
(prompt to raw text, or a raised transport error), the cleaned agriculture
rows, whether the CSV has a district column, the rainfall API outcome
(response records, or a raised request error), and the regex compiler
`re.compile(pat, re.IGNORECASE)` that `pandas.str.contains` applies to the
pattern: either a matcher over the column values or a raised `re.error`
(`reOracle` is the concrete instance the witnesses use). -/
structure Env where
  llm : String → Except String String
  df : List AgriRow
  hasDistrictCol : Bool
  net : Except String (List RainRecord)
  rx : String → Except String (String → Bool)

/-- Python `str(i)` for an int. -/
def intStr (i : Int) : String :=
  ⟨if i < 0 then '-' :: natDigits i.natAbs else natDigits i.natAbs⟩

/-- Python `f"{lst}"` for the list of available years in the rainfall error
message (the model prints the years as integers; pandas holds them as floats
and prints a trailing `.0`, a formatting detail of that message only). -/
def intListStr (l : List Int) : String :=
  "[" ++ String.intercalate ", " (l.map intStr) ++ "]"

def RAINFALL_API_URL : String :=
  "https://api.data.gov.in/resource/8e0bd482-4aba-4d99-9cb9-ff124f6f1c2f"

/-- The CSV path relative to the repository (the runtime prefix that
`os.path.dirname(__file__)` adds is deployment-specific). -/
def LOCAL_CSV_PATH : String :=
  "backend/app/data/agriculture_production.csv"

def RAINFALL_SOURCE_NAME : String :=
  "data.gov.in (Rainfall 1901-2017): " ++ RAINFALL_API_URL

def AGRICULTURE_SOURCE_NAME : String :=
  "data.gov.in (Crop Production): " ++ LOCAL_CSV_PATH

/-- Ascending sort of the deduplicated year list (`sorted(...unique...)`). -/
def sortedUniqueInts (l : List Int) : List Int :=
  l.dedup.mergeSort (fun a b => decide (a ≤ b))

/-- Lexicographic sort of the deduplicated keys, as pandas `groupby` orders
groups. -/
def sortedUniqueStrings (l : List String) : List String :=
  l.dedup.mergeSort (fun a b => decide (a ≤ b))

/-- pandas `groupby(key).sum()` over the production column: one row per key,
keys ascending. -/
def groupSumBy (key : AgriRow → String) (l : List AgriRow) : List (String × Dec) :=
  (sortedUniqueStrings (l.map key)).map
    (fun k => (k, Dec.sum ((l.filter (fun r => key r == k)).map
      (fun r => r.production_tonnes))))

/-- pandas `sort_values(column, ascending=False)`. -/
def sortByProdDesc (l : List (String × Dec)) : List (String × Dec) :=
  l.mergeSort (fun a b => decide (b.2.toRat ≤ a.2.toRat))

/-- pandas `sort_values(column, ascending=True)`. -/
def sortByProdAsc (l : List (String × Dec)) : List (String × Dec) :=
  l.mergeSort (fun a b => decide (a.2.toRat ≤ b.2.toRat))

/-- pandas `head(n)`: first `n` rows for `n ≥ 0`, all but the last `|n|`
rows for negative `n`. -/
def pdHead (n : Int) (l : List (String × Dec)) : List (String × Dec) :=
  if 0 ≤ n then l.take n.toNat else l.take (l.length - n.natAbs)

/-- `range(int(a), int(b) + 1)`. -/
def rangeInts (a b : Int) : List Int :=
  (List.range (b + 1 - a).toNat).map (fun i => a + Int.ofNat i)

/-! ## Tool handlers -/

/-- Tool 1, `get_live_rainfall_data(state, year)`: out-of-range years are
rejected before any network activity; otherwise the API response is filtered
by subdivision (case-insensitive containment) and exact year, and the first
matching record is summarised.  A raised request error is caught by the
handler's `except` and returned as an error mapping. -/
def get_live_rainfall_data (net : Except String (List RainRecord))
    (state : String) (year : Int) : JsonFields :=
  if ¬(1901 ≤ year ∧ year ≤ 2017) then
    jfields [("error", Json.str ("Invalid year " ++ intStr year ++
        ". Data is only available from 1901 to 2017.")),
      ("source", Json.str RAINFALL_SOURCE_NAME)]
  else
    match net with
    | Except.error e =>
      jfields [("error", Json.str ("Unexpected error in rainfall API: " ++ e)),
        ("source", Json.str RAINFALL_SOURCE_NAME)]
    | Except.ok records =>
      if records.isEmpty then
        jfields [("error", Json.str "No rainfall records returned by API."),
          ("source", Json.str RAINFALL_SOURCE_NAME)]
      else
        match records.filter
            (fun r => strContainsCI r.subdivision state && r.year == some year) with
        | [] =>
          let available := sortedUniqueInts
            ((records.filter (fun r => strContainsCI r.subdivision state)).filterMap
              (fun r => r.year))
          jfields [("error", Json.str ("No data for " ++ state ++ " in " ++
              intStr year ++ ". Available years for this state: " ++
              intListStr available)),
            ("source", Json.str RAINFALL_SOURCE_NAME)]
        | r :: _ =>
          let total := Dec.sum r.months
          jfields [("state", Json.str state), ("year", Json.num year 0),
            ("total_rainfall_mm", round2Json total.toRat),
            ("average_monthly_rainfall_mm", round2Json (total.toRat / 12)),
            ("source", Json.str RAINFALL_SOURCE_NAME)]

/-- Python truthiness of the optional `crop` argument (`if crop:`): absent
and empty string are both falsy. -/
def cropTruthy : Option String → Bool
  | none => false
  | some c => !(c == "")

/-- Tool 2, `get_local_agriculture_data(state, year, crop, top_n)`. -/
def get_local_agriculture_data (df : List AgriRow) (state : String)
    (year : Int) (crop : Option String) (top_n : Int) : JsonFields :=
  let filtered := df.filter (fun r => strContainsCI r.state state && r.year == year)
  if filtered.isEmpty then
    jfields [("error", Json.str ("No agriculture data found for " ++ state ++
        " in " ++ intStr year ++ ".")),
      ("source", Json.str AGRICULTURE_SOURCE_NAME)]
  else if cropTruthy crop then
    let c := crop.getD ""
    let crop_data := filtered.filter (fun r => strContainsCI r.crop c)
    if crop_data.isEmpty then
      jfields [("error", Json.str ("No data found for crop \x27" ++ c ++
          "\x27 in " ++ state ++ " in " ++ intStr year ++ ".")),
        ("source", Json.str AGRICULTURE_SOURCE_NAME)]
    else
      let total := Dec.sum (crop_data.map (fun r => r.production_tonnes))
      jfields [("state", Json.str state), ("year", Json.num year 0),
        ("crop", Json.str c),
        ("total_production_tonnes", round2Json total.toRat),
        ("source", Json.str AGRICULTURE_SOURCE_NAME)]
  else
    let summary := pdHead top_n (sortByProdDesc (groupSumBy (fun r => r.crop) filtered))
    jfields [("state", Json.str state), ("year", Json.num year 0),
      ("top_crops", Json.arr (jlist (summary.map (fun p =>
        Json.obj (jfields [("crop", Json.str p.1),
          ("production_tonnes", Json.num p.2.m p.2.e)]))))),
      ("source", Json.str AGRICULTURE_SOURCE_NAME)]

/-- Tool 3, `get_district_production(state, crop, year, sort_order)`. -/
def get_district_production (df : List AgriRow) (hasDistrictCol : Bool)
    (state crop : String) (year : Int) (sort_order : String) : JsonFields :=
  if !hasDistrictCol then
    jfields [("error", Json.str "District column not found in CSV."),
      ("source", Json.str AGRICULTURE_SOURCE_NAME)]
  else
    let filtered := df.filter (fun r => strContainsCI r.state state &&
      r.year == year && strContainsCI r.crop crop)
    if filtered.isEmpty then
      jfields [("error", Json.str ("No data found for " ++ crop ++ " in " ++
          state ++ " in " ++ intStr year ++ ".")),
        ("source", Json.str AGRICULTURE_SOURCE_NAME)]
    else
      let summary := groupSumBy (fun r => r.district) filtered
      let sorted := if sort_order == "asc" then sortByProdAsc summary
        else sortByProdDesc summary
      let label := if sort_order == "asc" then "lowest_production_district"
        else "highest_production_district"
      match sorted with
      | [] =>
        jfields [("error", Json.str ("No district data found for " ++ crop ++
            " in " ++ state ++ " in " ++ intStr year ++ ".")),
          ("source", Json.str AGRICULTURE_SOURCE_NAME)]
      | top :: _ =>
        jfields [("state", Json.str state), ("year", Json.num year 0),
          ("crop", Json.str crop),
          (label, Json.obj (jfields [("district", Json.str top.1),
            ("production_tonnes", round2Json top.2.toRat)])),
          ("source", Json.str AGRICULTURE_SOURCE_NAME)]

/-- The rows one year of the trend mask selects, for the compiled state
and crop matchers: state match, exact year, crop match. -/
def trendYearRows (ms mc : String → Bool) (df : List AgriRow) (year : Int) :
    List AgriRow :=
  df.filter (fun r => ms r.state && r.year == year && mc r.crop)

/-- Tool 4, `get_production_trend(state, crop, start_year, end_year)`: one
entry per year of the inclusive range, zero production when no row matches.
The masks compile the state and then the crop pattern as regexes on the
first loop iteration; a raised `re.error` is caught by the handler
(`except Exception`) and returned as the unexpected-error mapping.  An
empty year range builds no mask, so nothing compiles and the empty trend
is returned whatever the patterns. -/
def get_production_trend (rx : String → Except String (String → Bool))
    (df : List AgriRow) (state crop : String)
    (start_year end_year : Int) : JsonFields :=
  if (rangeInts start_year end_year).isEmpty then
    jfields [("state", Json.str state), ("crop", Json.str crop),
      ("trend", Json.arr (jlist [])),
      ("source", Json.str AGRICULTURE_SOURCE_NAME)]
  else
    match rx state with
    | Except.error e =>
      jfields [("error", Json.str
          ("Unexpected error in get_production_trend: " ++ e)),
        ("source", Json.str AGRICULTURE_SOURCE_NAME)]
    | Except.ok ms =>
      match rx crop with
      | Except.error e =>
        jfields [("error", Json.str
            ("Unexpected error in get_production_trend: " ++ e)),
          ("source", Json.str AGRICULTURE_SOURCE_NAME)]
      | Except.ok mc =>
        let trend := (rangeInts start_year end_year).map (fun year =>
          let year_data := trendYearRows ms mc df year
          let total := if year_data.isEmpty then Dec.mk 0 0
            else Dec.sum (year_data.map (fun r => r.production_tonnes))
          Json.obj (jfields [("year", Json.num year 0),
            ("production_tonnes", round2Json total.toRat)]))
        jfields [("state", Json.str state), ("crop", Json.str crop),
          ("trend", Json.arr (jlist trend)),
          ("source", Json.str AGRICULTURE_SOURCE_NAME)]

/-- Tool 5, `get_rainfall_trend(state, start_year, end_year)`: clamp the
range to 1901-2017 and call the single-year tool once per year. -/
def get_rainfall_trend (net : Except String (List RainRecord))
    (state : String) (start_year end_year : Int) : JsonFields :=
  let query_start := max 1901 start_year
  let query_end := min 2017 end_year
  let trend := (rangeInts query_start query_end).map (fun year =>
    let result := get_live_rainfall_data net state year
    match dictGet result "error" with
    | some errv =>
      Json.obj (jfields [("year", Json.num year 0),
        ("total_rainfall_mm", Json.null), ("note", errv)])
    | none =>
      Json.obj (jfields [("year", Json.num year 0),
        ("total_rainfall_mm", (dictGet result "total_rainfall_mm").getD Json.null)]))
  jfields [("state", Json.str state), ("trend", Json.arr (jlist trend)),
    ("note", Json.str "Rainfall data is limited to 1901-2017."),
    ("source", Json.str RAINFALL_SOURCE_NAME)]

/-! ## Tool registry and argument binding

Python dispatches `func(**args)`.  The model binds the parsed JSON arguments
to the handler's typed parameters: an unexpected key, a missing required key
or a mistyped value yields a binding error.  In Python the same inputs either
raise `TypeError` at the call or raise inside the handler; both are caught by
the loop's `except` and folded into history, which is the path a binding
error takes here, so the loop-level behaviour agrees. -/

def JsonFields.keys : JsonFields → List String
  | JsonFields.nil => []
  | JsonFields.cons k _ fs => k :: keys fs

/-- All argument keys are parameters of the handler (no unexpected keyword). -/
def keysOk (args : JsonFields) (allowed : List String) : Bool :=
  args.keys.all (fun k => allowed.contains k)

/-- A required string argument. -/
def argStr (args : JsonFields) (k : String) : Option String :=
  match dictGet args k with
  | some (Json.str s) => some s
  | _ => none

/-- A required integer argument. -/
def argInt (args : JsonFields) (k : String) : Option Int :=
  match dictGet args k with
  | some (Json.num m 0) => some m
  | _ => none

/-- An optional string argument (`None` when absent). -/
def argStrOpt (args : JsonFields) (k : String) : Option (Option String) :=
  match dictGet args k with
  | none => some none
  | some (Json.str s) => some (some s)
  | some _ => none

/-- An optional integer argument with a default. -/
def argIntD (args : JsonFields) (k : String) (d : Int) : Option Int :=
  match dictGet args k with
  | none => some d
  | some (Json.num m 0) => some m
  | _ => none

/-- An optional string argument with a default. -/
def argStrD (args : JsonFields) (k : String) (d : String) : Option String :=
  match dictGet args k with
  | none => some d
  | some (Json.str s) => some s
  | _ => none

/-- One registry entry: description, argument schema, and the bound handler. -/
structure ToolInfo where
  desc : String
  schema : Json
  run : Env → JsonFields → Except String JsonFields

/-- The `TOOLS` registry, in registration order. -/
def TOOLS : List (String × ToolInfo) := [
  ("get_live_rainfall_data", {
    desc := "Get total/avg rainfall for a *single state* and *single year*. (Data 1901-2017 ONLY)"
    schema := Json.obj (jfields [("state", Json.str "string"),
      ("year", Json.str "integer")])
    run := fun env args =>
      if !keysOk args ["state", "year"] then
        Except.error "get_live_rainfall_data() got an unexpected keyword argument"
      else
        match argStr args "state", argInt args "year" with
        | some s, some y => Except.ok (get_live_rainfall_data env.net s y)
        | _, _ => Except.error "get_live_rainfall_data() missing or mistyped arguments" }),
  ("get_local_agriculture_data", {
    desc := "Get agriculture data for a *single state* and *single year*. Provide \x27crop\x27 to get its total, or \x27top_n\x27 to get a list of top crops."
    schema := Json.obj (jfields [("state", Json.str "string"),
      ("year", Json.str "integer"), ("crop", Json.str "string (optional)"),
      ("top_n", Json.str "integer (optional, default 5)")])
    run := fun env args =>
      if !keysOk args ["state", "year", "crop", "top_n"] then
        Except.error "get_local_agriculture_data() got an unexpected keyword argument"
      else
        match argStr args "state", argInt args "year", argStrOpt args "crop",
            argIntD args "top_n" 5 with
        | some s, some y, some c, some n =>
          Except.ok (get_local_agriculture_data env.df s y c n)
        | _, _, _, _ =>
          Except.error "get_local_agriculture_data() missing or mistyped arguments" }),
  ("get_district_production", {
    desc := "Finds the district with the highest (\x27desc\x27) or lowest (\x27asc\x27) production for a *specific crop*, *state*, and *year*."
    schema := Json.obj (jfields [("state", Json.str "string"),
      ("crop", Json.str "string"), ("year", Json.str "integer"),
      ("sort_order", Json.str "string (\x27desc\x27 or \x27asc\x27, default \x27desc\x27)")])
    run := fun env args =>
      if !keysOk args ["state", "crop", "year", "sort_order"] then
        Except.error "get_district_production() got an unexpected keyword argument"
      else
        match argStr args "state", argStr args "crop", argInt args "year",
            argStrD args "sort_order" "desc" with
        | some s, some c, some y, some o =>
          Except.ok (get_district_production env.df env.hasDistrictCol s c y o)
        | _, _, _, _ =>
          Except.error "get_district_production() missing or mistyped arguments" }),
  ("get_production_trend", {
    desc := "Get a time-series list of production for *one crop* in *one state* over a *range of years*."
    schema := Json.obj (jfields [("state", Json.str "string"),
      ("crop", Json.str "string"), ("start_year", Json.str "integer"),
      ("end_year", Json.str "integer")])
    run := fun env args =>
      if !keysOk args ["state", "crop", "start_year", "end_year"] then
        Except.error "get_production_trend() got an unexpected keyword argument"
      else
        match argStr args "state", argStr args "crop", argInt args "start_year",
            argInt args "end_year" with
        | some s, some c, some a, some b =>
          Except.ok (get_production_trend env.rx env.df s c a b)
        | _, _, _, _ =>
          Except.error "get_production_trend() missing or mistyped arguments" }),
  ("get_rainfall_trend", {
    desc := "Get a time-series list of total rainfall for *one state* over a *range of years*. (Data 1901-2017 ONLY)"
    schema := Json.obj (jfields [("state", Json.str "string"),
      ("start_year", Json.str "integer"), ("end_year", Json.str "integer")])
    run := fun env args =>
      if !keysOk args ["state", "start_year", "end_year"] then
        Except.error "get_rainfall_trend() got an unexpected keyword argument"
      else
        match argStr args "state", argInt args "start_year",
            argInt args "end_year" with
        | some s, some a, some b =>
          Except.ok (get_rainfall_trend env.net s a b)
        | _, _, _ =>
          Except.error "get_rainfall_trend() missing or mistyped arguments" })]

/-- `TOOLS[name]`, as dictionary lookup. -/
def toolLookup (name : String) : Option ToolInfo :=
  (TOOLS.find? (fun p => p.1 == name)).map (fun p => p.2)

/-- `get_tool_definitions()`: one labelled block per registered tool, joined
with newlines, in registration order. -/
def get_tool_definitions : String :=
  String.intercalate "\n" (TOOLS.map (fun p =>
    "- Tool: `" ++ p.1 ++ "`\n  - Description: " ++ p.2.desc ++
      "\n  - Arguments (JSON Schema): " ++ jsonDumps p.2.schema))

/-! ## The agent loop -/

/-- `MAX_STEPS`: the fixed step ceiling of `run_agent`. -/
def MAX_STEPS : Nat := 8

def FINAL_MARKER : String := "Final Answer:"

structure HistoryEntry where
  role : String
  content : String
deriving DecidableEq

/-- The template segments of `AGENT_SYSTEM_PROMPT` around the three
`format` placeholders `tool_definitions`, `history` and `user_query`. -/
def PROMPT_PART1 : String :=
  "You are Project Samarth, a data analyst assistant for Indian agriculture and climate data.\nYour job is to answer the user\x27s question. You must be accurate and cite your sources.\n\nYou have access to the following tools:\n"

def PROMPT_PART2 : String :=
  "\n\nYou must follow this process:\n1.  **Think:** Analyze the user\x27s question and the conversation history.\n2.  **Reason:** Decide if you have enough information to answer.\n    - If YES, you *must* respond with your final answer, prefixed with \"Final Answer:\".\n    - If NO, you must choose *one* tool to call to get the missing information.\n3.  **Act:** If you need to call a tool, you must respond with *only* a single JSON object. This JSON must contain \"tool\" (the tool name) and \"args\" (a dictionary of arguments).\n\n**RULES:**\n-   **Multi-step:** For complex questions (like \"compare X and Y\" or \"correlate A and B\"), you must call tools multiple times. Call for X, get the result, then call for Y, get the result, then provide the \"Final Answer:\".\n-   **Traceability:** You *must* cite the \"source\" field returned by the tools for every piece of data you present.\n-   **Data Limitations:** The rainfall API only has data from 1901-2017. Politely inform the user if they ask for data outside this range.\n-   **Errors:** If a tool returns an error, explain the error to the user and suggest how to fix their query. Do not try to call another tool.\n-   **Comparisons:** When comparing two or more items (like \"compare X and Y\"), you *must* present the final comparison in a Markdown table.\n**Conversation History:**\n"

def PROMPT_PART3 : String := "\n\n**User Question:**\n"

def PROMPT_PART4 : String :=
  "\n\nYour response (either JSON for a tool call, or \"Final Answer: ...\" text):\n"

/-- `"\n".join(f"Role: {role}\nContent: {content}")` over the history. -/
def historyStr (history : List HistoryEntry) : String :=
  String.intercalate "\n" (history.map (fun e =>
    "Role: " ++ e.role ++ "\nContent: " ++ e.content))

/-- `AGENT_SYSTEM_PROMPT.format(...)` with the `history_str or "No history
yet."` fallback. -/
def composePrompt (toolDefs : String) (history : List HistoryEntry)
    (q : String) : String :=
  let h := historyStr history
  PROMPT_PART1 ++ toolDefs ++ PROMPT_PART2 ++
    (if h == "" then "No history yet." else h) ++ PROMPT_PART3 ++ q ++
    PROMPT_PART4

/-- The result of one `run_agent` call: `answer t` models the returned
`{"final_answer": t}` and `failure m` the returned `{"error": m}`. -/
inductive Outcome where
  | answer (text : String)
  | failure (msg : String)
deriving DecidableEq

/-- Observable actions of one run, in order: each reasoning-engine call,
each history append, and each tool-handler invocation. -/
inductive Ev where
  | llmCall
  | assistantAppend (content : String)
  | toolInvoke (name : String)
  | toolOutputAppend (content : String)
deriving DecidableEq

/-- The fixed tail of the recovery message the loop folds into history. -/
def ERROR_SUFFIX : String :=
  ". The LLM response was not valid JSON or the tool call failed. Make sure to respond with *only* JSON for tool calls or \x27Final Answer:\x27 for answers."

def mkDispatchError (e : String) : String :=
  "Error: " ++ e ++ ERROR_SUFFIX

/-- `f"{tool_name}"` for the unknown-tool message when `choice.get("tool")`
is absent or not a string (`str(None)` is `"None"`). -/
def toolNameStr : Option Json → String
  | some (Json.str s) => s
  | some _ => "<non-string tool name>"
  | none => "None"

/-- The body of the non-final branch of a step: parse the raw response,
validate the tool name against the registry, bind the arguments and run the
handler.  Returns the tool name and the serialized tool output, or the
message of the exception the Python code would catch. -/
def dispatchStep (env : Env) (raw : String) : Except String (String × String) :=
  match safe_json_parse raw with
  | Except.error e => Except.error e
  | Except.ok j =>
    match j with
    | Json.obj choice =>
      let toolName := dictGet choice "tool"
      match toolName with
      | some (Json.str name) =>
        match toolLookup name with
        | some info =>
          match (dictGet choice "args").getD (Json.obj JsonFields.nil) with
          | Json.obj argFields =>
            match info.run env argFields with
            | Except.ok result => Except.ok (name, jsonDumps (Json.obj result))
            | Except.error e => Except.error e
          | _ => Except.error "argument after ** must be a mapping"
        | none => Except.error ("LLM chose unknown tool: " ++ name)
      | _ => Except.error ("LLM chose unknown tool: " ++ toolNameStr toolName)
    | _ => Except.error "LLM response was not a JSON object"

/-- Python `str.startswith`. -/
def pyStartsWith (s p : String) : Bool :=
  p.data.isPrefixOf s.data

/-- Is the trimmed response a final answer? -/
def isFinalResponse (raw : String) : Bool :=
  pyStartsWith (pyStrip raw) FINAL_MARKER

/-- The final answer the code extracts: strip, remove every occurrence of
the marker, strip again. -/
def finalAnswerText (raw : String) : String :=
  pyStrip (pyReplace (pyStrip raw) FINAL_MARKER "")

/-- What one step does with the raw model response: either the loop ends
with a final answer, or the step appends its history entries (the assistant
entry first, then the tool output or the recovery message) and continues. -/
inductive StepResult where
  | final (text : String)
  | next (appended : List HistoryEntry) (events : List Ev)
deriving DecidableEq

def classifyResponse (env : Env) (raw : String) : StepResult :=
  if isFinalResponse raw then
    StepResult.final (finalAnswerText raw)
  else
    let assistantE : HistoryEntry := ⟨"assistant (tool call)", raw⟩
    match dispatchStep env raw with
    | Except.ok (name, outStr) =>
      StepResult.next [assistantE, ⟨"tool_output", outStr⟩]
        [Ev.assistantAppend raw, Ev.toolInvoke name, Ev.toolOutputAppend outStr]
    | Except.error e =>
      let errStr := mkDispatchError e
      StepResult.next [assistantE, ⟨"tool_output", errStr⟩]
        [Ev.assistantAppend raw, Ev.toolOutputAppend errStr]

def STEP_BUDGET_MSG : String :=
  "The agent could not produce a final answer after multiple steps. The query may be too complex."

/-- The `for i in range(MAX_STEPS)` loop of `run_agent`, by remaining steps:
compose the prompt, call the reasoning engine (a raised transport error
aborts the query), classify the response, and either stop with the final
answer or append to history and continue.  Also returns the ordered event
trace of the run. -/
def runAgentLoop (env : Env) (q : String) :
    Nat → List HistoryEntry → Outcome × List Ev
  | 0, _ => (Outcome.failure STEP_BUDGET_MSG, [])
  | n + 1, history =>
    let prompt := composePrompt get_tool_definitions history q
    match env.llm prompt with
    | Except.error e =>
      (Outcome.failure ("Error communicating with LLM: " ++ e), [Ev.llmCall])
    | Except.ok raw =>
      match classifyResponse env raw with
      | StepResult.final t => (Outcome.answer t, [Ev.llmCall])
      | StepResult.next appended evs =>
        let r := runAgentLoop env q n (history ++ appended)
        (r.1, Ev.llmCall :: (evs ++ r.2))

/-- `run_agent(user_query)`: fresh history, `MAX_STEPS` budget. -/
def run_agent (env : Env) (q : String) : Outcome × List Ev :=
  runAgentLoop env q MAX_STEPS []

/-- Number of reasoning/tool cycles a trace records. -/
def countLlmCalls (evs : List Ev) : Nat :=
  (evs.filter (fun e => e == Ev.llmCall)).length

/-! ## Shared facts about the loop and the registry -/

/-- Does the trace contain the event? -/
def hasEvent : List Ev → Ev → Bool
  | [], _ => false
  | x :: xs, e => x == e || hasEvent xs e

/-- Does the trace contain any tool invocation? -/
def hasToolInvoke : List Ev → Bool
  | [] => false
  | Ev.toolInvoke _ :: _ => true
  | _ :: xs => hasToolInvoke xs

/-- The JSON object `{"tool": ..., "args": {...}}` of a tool-call decision. -/
def toolCallJson (tool : String) (args : JsonFields) : Json :=
  Json.obj (jfields [("tool", Json.str tool), ("args", Json.obj args)])

theorem countLlmCalls_nil : countLlmCalls [] = 0 := rfl

theorem countLlmCalls_cons (e : Ev) (evs : List Ev) :
    countLlmCalls (e :: evs) =
      (if e = Ev.llmCall then 1 else 0) + countLlmCalls evs := by
  simp only [countLlmCalls, List.filter_cons]
  split
  · next h =>
    rw [if_pos (by simpa using h)]
    simp [Nat.add_comm]
  · next h =>
    rw [if_neg (by simpa using h)]
    simp

theorem countLlmCalls_append (a b : List Ev) :
    countLlmCalls (a ++ b) = countLlmCalls a + countLlmCalls b := by
  simp [countLlmCalls, List.filter_append]

/-- The events of one non-final step never include a reasoning call: those
are counted by the loop itself. -/
theorem classifyResponse_no_llm_event (env : Env) (raw : String)
    (appended : List HistoryEntry) (evs : List Ev)
    (h : classifyResponse env raw = StepResult.next appended evs) :
    countLlmCalls evs = 0 := by
  rw [classifyResponse] at h
  split at h
  · cases h
  · split at h <;>
    · cases h
      simp [countLlmCalls_cons, countLlmCalls_nil]

/-- Unfolding one continuing iteration of the loop. -/
theorem runAgentLoop_continue (env : Env) (q : String) (n : Nat)
    (history : List HistoryEntry) (raw : String)
    (appended : List HistoryEntry) (evs : List Ev)
    (hllm : env.llm (composePrompt get_tool_definitions history q) =
      Except.ok raw)
    (hcl : classifyResponse env raw = StepResult.next appended evs) :
    runAgentLoop env q (n + 1) history =
      ((runAgentLoop env q n (history ++ appended)).1,
        Ev.llmCall :: (evs ++ (runAgentLoop env q n (history ++ appended)).2)) := by
  simp [runAgentLoop, hllm, hcl]

/-! ## Concrete environments used by witnesses and counterexamples -/

/-- A world whose reasoning engine always answers with the same text, with an
empty data set and an empty rainfall response. -/
def constEnv (response : String) : Env :=
  { llm := fun _ => Except.ok response, df := [], hasDistrictCol := true,
    net := Except.ok [], rx := reOracle }

/-- A world whose reasoning engine raises on every call. -/
def failEnv (msg : String) : Env :=
  { llm := fun _ => Except.error msg, df := [], hasDistrictCol := true,
    net := Except.ok [], rx := reOracle }

/-! ## The claims -/

/-- C1: for every user query, if the reasoning engine never produces a
response classified as a final answer, `run_agent` terminates after exactly
`MAX_STEPS = 8` reasoning/tool cycles and returns the step-budget error
outcome; the loop never runs unboundedly (it is a total function of the
remaining-step count). -/
theorem C1_step_budget_exhaustion (env : Env) (q : String)
    (h : ∀ p, ∃ raw, env.llm p = Except.ok raw ∧ isFinalResponse raw = false) :
    (run_agent env q).1 = Outcome.failure STEP_BUDGET_MSG ∧
      countLlmCalls (run_agent env q).2 = MAX_STEPS := by
  suffices hgen : ∀ (n : Nat) (history : List HistoryEntry),
      (runAgentLoop env q n history).1 = Outcome.failure STEP_BUDGET_MSG ∧
        countLlmCalls (runAgentLoop env q n history).2 = n from hgen MAX_STEPS []
  intro n
  induction n with
  | zero => intro history; exact ⟨rfl, rfl⟩
  | succ n ih =>
    intro history
    obtain ⟨raw, hraw, hnf⟩ := h (composePrompt get_tool_definitions history q)
    have hcl : ∃ appended evs,
        classifyResponse env raw = StepResult.next appended evs := by
      rw [classifyResponse, if_neg (by simp [hnf])]
      cases hd : dispatchStep env raw with
      | ok p =>
        obtain ⟨name, outStr⟩ := p
        exact ⟨_, _, rfl⟩
      | error e => exact ⟨_, _, rfl⟩
    obtain ⟨appended, evs, hcl⟩ := hcl
    rw [runAgentLoop_continue env q n history raw appended evs hraw hcl]
    refine ⟨(ih _).1, ?_⟩
    rw [countLlmCalls_cons, countLlmCalls_append,
      classifyResponse_no_llm_event env raw appended evs hcl, (ih _).2]
    simp [Nat.add_comm]

/-- C1 witness: a reasoning engine that always replies `"no json here"`
exhausts the budget in exactly 8 cycles. -/
theorem C1_witness :
    (run_agent (constEnv "no json here") "q").1 =
        Outcome.failure STEP_BUDGET_MSG ∧
      countLlmCalls (run_agent (constEnv "no json here") "q").2 = MAX_STEPS :=
  C1_step_budget_exhaustion (constEnv "no json here") "q"
    (fun _ => ⟨"no json here", rfl, by decide⟩)

/-- C6: when the reasoning-engine call raises at any step, `run_agent`
aborts the query at once with the transport-error outcome: the step appends
nothing to history (the trace holds only the failed call), the call is not
retried, and no further step runs. -/
theorem C6_transport_error (env : Env) (q : String) (n : Nat)
    (history : List HistoryEntry) (e : String)
    (h : env.llm (composePrompt get_tool_definitions history q) =
      Except.error e) :
    runAgentLoop env q (n + 1) history =
      (Outcome.failure ("Error communicating with LLM: " ++ e), [Ev.llmCall]) := by
  simp [runAgentLoop, h]

/-- C6 witness: a reasoning engine that raises `"boom"` aborts the full
8-step run at the first step. -/
theorem C6_witness :
    run_agent (failEnv "boom") "q" =
      (Outcome.failure ("Error communicating with LLM: boom"), [Ev.llmCall]) :=
  C6_transport_error (failEnv "boom") "q" 7 [] "boom" rfl

/-! ## C2: the final-answer marker -/

theorem pyReplaceF_no_occur (fuel : Nat) :
    ∀ (pat repl s : List Char), s.length < fuel → pat ≠ [] →
      containsSubList pat s = false → pyReplaceF fuel pat repl s = s := by
  induction fuel with
  | zero =>
    intro pat repl s h _ _
    omega
  | succ fuel ih =>
    intro pat repl s hlen hne hocc
    cases s with
    | nil => rfl
    | cons c rest =>
      rw [containsSubList, Bool.or_eq_false_iff] at hocc
      simp only [pyReplaceF]
      rw [if_neg (by simp [hocc.1]), ih pat repl rest (by simp at hlen; omega)
        hne hocc.2]

theorem pyReplaceList_marker (pat rest : List Char) (hne : pat ≠ [])
    (hocc : containsSubList pat rest = false) :
    pyReplaceList pat [] (pat ++ rest) = rest := by
  rw [pyReplaceList, if_neg hne]
  obtain ⟨p, pt, rfl⟩ : ∃ p pt, pat = p :: pt := by
    cases pat with
    | nil => exact absurd rfl hne
    | cons p pt => exact ⟨p, pt, rfl⟩
  rw [List.cons_append]
  simp only [pyReplaceF]
  rw [if_pos (by
      rw [← List.cons_append, List.isPrefixOf_iff_prefix]
      exact List.prefix_append _ _),
    List.nil_append,
    show (p :: (pt ++ rest)).drop (p :: pt).length = rest from by
      simp [List.length_cons, List.drop_succ_cons, List.drop_left]]
  exact pyReplaceF_no_occur _ _ _ _
    (by simp only [List.length_cons, List.length_append]; omega) hne hocc

/-- C2 counterexample: the code removes EVERY occurrence of the marker
(`str.replace` replaces all occurrences), not only the leading one.  On
`"Final Answer: A Final Answer: B"` the claim predicts the remaining text
after stripping only the leading marker, `"A Final Answer: B"`, but the
code returns `"A  B"`. -/
theorem C2_counterexample :
    isFinalResponse "Final Answer: A Final Answer: B" = true ∧
    finalAnswerText "Final Answer: A Final Answer: B" = "A  B" ∧
    pyStrip ⟨("Final Answer: A Final Answer: B" : String).data.drop
      FINAL_MARKER.data.length⟩ = "A Final Answer: B" ∧
    ("A  B" : String) ≠ "A Final Answer: B" := by
  refine ⟨by decide, by decide, by decide, by decide⟩

/-- C2 (amended): if the trimmed response starts with the marker
`"Final Answer:"` and the marker does not occur again in the remainder,
classification returns a final answer whose text is the trimmed remainder
after the leading marker, with no parsing attempted — unconditionally, even
when the text contains `\x7b` or `\x7d` characters. -/
theorem C2_final_marker (env : Env) (raw : String)
    (hfin : isFinalResponse raw = true)
    (honce : containsSubList FINAL_MARKER.data
      ((pyStrip raw).data.drop FINAL_MARKER.data.length) = false) :
    classifyResponse env raw =
      StepResult.final
        (pyStrip ⟨(pyStrip raw).data.drop FINAL_MARKER.data.length⟩) := by
  rw [classifyResponse, if_pos (by simpa using hfin)]
  congr 1
  rw [isFinalResponse, pyStartsWith, List.isPrefixOf_iff_prefix] at hfin
  obtain ⟨rest, hrest⟩ := hfin
  have hdata : (pyStrip raw).data = FINAL_MARKER.data ++ rest := hrest.symm
  rw [finalAnswerText, pyReplace, hdata, List.drop_left,
    pyReplaceList_marker FINAL_MARKER.data rest (by decide)
      (by rw [hdata, List.drop_left] at honce; exact honce)]

theorem C2_final_marker_witness :
    classifyResponse (constEnv "x") "Final Answer: 42" =
      StepResult.final "42" :=
  (C2_final_marker (constEnv "x") "Final Answer: 42"
    (by decide) (by decide)).trans (by decide)

/-! ## C4 and C5: history growth of a non-final step -/

set_option maxRecDepth 10000 in
/-- C4 counterexample: the code appends the `assistant (tool call)` entry
BEFORE attempting to parse the response, so a step whose output fails to
parse still records that entry, contradicting the claimed equivalence.
`"gibberish"` does not parse, yet the trace of a run that keeps producing
it contains the assistant-append event, and the step appends both the
assistant entry and the diagnostic. -/
theorem C4_counterexample :
    safe_json_parse "gibberish" =
      Except.error "Failed to parse JSON from LLM response: gibberish" ∧
    hasEvent (run_agent (constEnv "gibberish") "q").2
      (Ev.assistantAppend "gibberish") = true ∧
    classifyResponse (constEnv "gibberish") "gibberish" =
      StepResult.next
        [⟨"assistant (tool call)", "gibberish"⟩,
          ⟨"tool_output", mkDispatchError
            "Failed to parse JSON from LLM response: gibberish"⟩]
        [Ev.assistantAppend "gibberish",
          Ev.toolOutputAppend (mkDispatchError
            "Failed to parse JSON from LLM response: gibberish")] := by
  refine ⟨rfl, by decide, by decide⟩

/-- C4 (amended): EVERY non-final step appends the `assistant (tool call)`
entry with the raw response text followed by a `tool_output` entry — whether
or not the response parses to a known tool call — and a final step appends
nothing, ending the loop with the extracted answer. -/
theorem C4_assistant_append_policy (env : Env) (raw : String) :
    (isFinalResponse raw = false →
      ∃ out evs, classifyResponse env raw =
        StepResult.next [⟨"assistant (tool call)", raw⟩, ⟨"tool_output", out⟩]
          (Ev.assistantAppend raw :: evs)) ∧
    (isFinalResponse raw = true →
      classifyResponse env raw = StepResult.final (finalAnswerText raw)) := by
  constructor
  · intro hnf
    rw [classifyResponse, if_neg (by simp [hnf])]
    cases hd : dispatchStep env raw with
    | error e =>
      exact ⟨mkDispatchError e, [Ev.toolOutputAppend (mkDispatchError e)], rfl⟩
    | ok p =>
      exact ⟨p.2, [Ev.toolInvoke p.1, Ev.toolOutputAppend p.2], rfl⟩
  · intro hfin
    rw [classifyResponse, if_pos (by simpa using hfin)]

theorem C4_assistant_append_policy_witness :
    (∃ out evs, classifyResponse (constEnv "x") "blah" =
      StepResult.next [⟨"assistant (tool call)", "blah"⟩, ⟨"tool_output", out⟩]
        (Ev.assistantAppend "blah" :: evs)) ∧
    classifyResponse (constEnv "x") "Final Answer: hi" =
      StepResult.final "hi" :=
  ⟨(C4_assistant_append_policy (constEnv "x") "blah").1 (by decide),
    ((C4_assistant_append_policy (constEnv "x") "Final Answer: hi").2
      (by decide)).trans (by decide)⟩

/-- The response is rejected before any handler could run: either
`safe_json_parse` fails, or the parse does not yield an object with a
string `tool` field naming a registered tool. -/
def parseFailsOrUnknownTool (raw : String) : Bool :=
  match safe_json_parse raw with
  | Except.error _ => true
  | Except.ok (Json.obj choice) =>
    match dictGet choice "tool" with
    | some (Json.str name) => (toolLookup name).isNone
    | _ => true
  | Except.ok _ => true

/-- The two history entries a recovered step appends. -/
def recoveryEntries (raw e : String) : List HistoryEntry :=
  [⟨"assistant (tool call)", raw⟩, ⟨"tool_output", mkDispatchError e⟩]

/-- The events of a recovered step: no tool invocation among them. -/
def recoveryEvs (raw e : String) : List Ev :=
  [Ev.assistantAppend raw, Ev.toolOutputAppend (mkDispatchError e)]

theorem dispatch_error_of_bad (env : Env) (raw : String)
    (hbad : parseFailsOrUnknownTool raw = true) :
    ∃ e, dispatchStep env raw = Except.error e := by
  cases hp : safe_json_parse raw with
  | error e => exact ⟨e, by simp [dispatchStep, hp]⟩
  | ok j =>
    cases j with
    | obj choice =>
      cases ht : dictGet choice "tool" with
      | none =>
        exact ⟨"LLM chose unknown tool: " ++ toolNameStr none,
          by simp [dispatchStep, hp, ht]⟩
      | some v =>
        cases v with
        | str name =>
          have hl : toolLookup name = none := by
            unfold parseFailsOrUnknownTool at hbad
            simp [hp, ht] at hbad
            exact hbad
          exact ⟨"LLM chose unknown tool: " ++ name,
            by simp [dispatchStep, hp, ht, hl]⟩
        | null =>
          exact ⟨"LLM chose unknown tool: " ++ toolNameStr (some Json.null),
            by simp [dispatchStep, hp, ht]⟩
        | bool b =>
          exact ⟨"LLM chose unknown tool: " ++ toolNameStr (some (Json.bool b)),
            by simp [dispatchStep, hp, ht]⟩
        | num m e =>
          exact ⟨"LLM chose unknown tool: " ++ toolNameStr (some (Json.num m e)),
            by simp [dispatchStep, hp, ht]⟩
        | arr l =>
          exact ⟨"LLM chose unknown tool: " ++ toolNameStr (some (Json.arr l)),
            by simp [dispatchStep, hp, ht]⟩
        | obj o =>
          exact ⟨"LLM chose unknown tool: " ++ toolNameStr (some (Json.obj o)),
            by simp [dispatchStep, hp, ht]⟩
    | null => exact ⟨"LLM response was not a JSON object", by simp [dispatchStep, hp]⟩
    | bool b => exact ⟨"LLM response was not a JSON object", by simp [dispatchStep, hp]⟩
    | num m e => exact ⟨"LLM response was not a JSON object", by simp [dispatchStep, hp]⟩
    | str s => exact ⟨"LLM response was not a JSON object", by simp [dispatchStep, hp]⟩
    | arr l => exact ⟨"LLM response was not a JSON object", by simp [dispatchStep, hp]⟩

/-- C5: a step whose response fails to parse or names an unregistered tool
is recoverable: the dispatcher raises (an `Except.error`, never a handler
invocation — the event list holds no `toolInvoke`), the step appends the
assistant entry and a `tool_output` diagnostic built from the error, and
the loop goes on to the next step with one unit of budget consumed, rather
than terminating the query. -/
theorem C5_recoverable_step (env : Env) (q raw : String) (n : Nat)
    (history : List HistoryEntry)
    (hnf : isFinalResponse raw = false)
    (hbad : parseFailsOrUnknownTool raw = true)
    (hllm : env.llm (composePrompt get_tool_definitions history q) =
      Except.ok raw) :
    ∃ e,
      dispatchStep env raw = Except.error e ∧
      hasToolInvoke (recoveryEvs raw e) = false ∧
      classifyResponse env raw =
        StepResult.next (recoveryEntries raw e) (recoveryEvs raw e) ∧
      runAgentLoop env q (n + 1) history =
        ((runAgentLoop env q n (history ++ recoveryEntries raw e)).1,
          Ev.llmCall :: (recoveryEvs raw e ++
            (runAgentLoop env q n (history ++ recoveryEntries raw e)).2)) := by
  obtain ⟨e, he⟩ := dispatch_error_of_bad env raw hbad
  have hcl : classifyResponse env raw =
      StepResult.next (recoveryEntries raw e) (recoveryEvs raw e) := by
    rw [classifyResponse, if_neg (by simp [hnf]), he]
    rfl
  exact ⟨e, he, rfl, hcl,
    runAgentLoop_continue env q n history raw _ _ hllm hcl⟩

theorem C5_recoverable_step_witness :
    ∃ e,
      dispatchStep (constEnv "gibberish") "gibberish" = Except.error e ∧
      hasToolInvoke (recoveryEvs "gibberish" e) = false ∧
      classifyResponse (constEnv "gibberish") "gibberish" =
        StepResult.next (recoveryEntries "gibberish" e)
          (recoveryEvs "gibberish" e) ∧
      runAgentLoop (constEnv "gibberish") "q" (3 + 1) [] =
        ((runAgentLoop (constEnv "gibberish") "q" 3
            ([] ++ recoveryEntries "gibberish" e)).1,
          Ev.llmCall :: (recoveryEvs "gibberish" e ++
            (runAgentLoop (constEnv "gibberish") "q" 3
              ([] ++ recoveryEntries "gibberish" e)).2)) :=
  C5_recoverable_step (constEnv "gibberish") "q" "gibberish" 3 []
    (by decide) (by decide) rfl

/-! ## C3: recovering an embedded tool call from prose -/

set_option maxRecDepth 10000 in
/-- C3 counterexample: surrounding prose may itself contain a brace, and
the first-`\x7b`-to-last-`\x7d` slice then takes a strict superset of the
rendered object, which no longer parses; the quote-repair retry does not
help, so the parse raises instead of recovering the tool call.  Prose
`"x\x7by "` before a rendered call is enough. -/
theorem C3_counterexample :
    jsonDumps (toolCallJson "t" JsonFields.nil) =
      "\x7b\"tool\": \"t\", \"args\": \x7b\x7d\x7d" ∧
    safe_json_parse ("x\x7by " ++ jsonDumps (toolCallJson "t" JsonFields.nil)) =
      Except.error ("Failed to parse JSON from LLM response: " ++
        ("x\x7by " ++ jsonDumps (toolCallJson "t" JsonFields.nil))) := by
  refine ⟨rfl, rfl⟩

/-- C3 (amended): if the prose BEFORE the rendered call contains no `\x7b`
and the prose AFTER it contains no `\x7d`, `safe_json_parse` recovers
exactly the rendered tool-call object, whose `tool` and `args` fields are
the rendered name and arguments. -/
theorem C3_embedded_tool_call (tool : String) (args : JsonFields)
    (pre post : List Char)
    (hpre : '{' ∉ pre) (hpost : '}' ∉ post) :
    safe_json_parse ⟨pre ++ renderChars (toolCallJson tool args) ++ post⟩ =
      Except.ok (toolCallJson tool args) ∧
    dictGet (jfields [("tool", Json.str tool), ("args", Json.obj args)])
      "tool" = some (Json.str tool) ∧
    dictGet (jfields [("tool", Json.str tool), ("args", Json.obj args)])
      "args" = some (Json.obj args) :=
  ⟨safe_json_parse_embed _ pre post hpre hpost, rfl, rfl⟩

set_option maxRecDepth 10000 in
theorem C3_embedded_tool_call_witness :
    safe_json_parse ⟨"The call: ".data ++
        renderChars (toolCallJson "get_production_trend"
          (jfields [("state", Json.str "Punjab")])) ++ " done".data⟩ =
      Except.ok (toolCallJson "get_production_trend"
        (jfields [("state", Json.str "Punjab")])) ∧
    dictGet (jfields [("tool", Json.str "get_production_trend"),
        ("args", Json.obj (jfields [("state", Json.str "Punjab")]))])
      "tool" = some (Json.str "get_production_trend") ∧
    dictGet (jfields [("tool", Json.str "get_production_trend"),
        ("args", Json.obj (jfields [("state", Json.str "Punjab")]))])
      "args" = some (Json.obj (jfields [("state", Json.str "Punjab")])) :=
  C3_embedded_tool_call "get_production_trend"
    (jfields [("state", Json.str "Punjab")])
    ("The call: ".data) (" done".data) (by decide) (by decide)

/-! ## C7: the year-range guard of the rainfall handler -/

theorem containsSubList_append_right (pat l r : List Char)
    (h : containsSubList pat r = true) :
    containsSubList pat (l ++ r) = true := by
  induction l with
  | nil => simpa using h
  | cons c cs ih =>
    show (pat.isPrefixOf (c :: (cs ++ r)) || containsSubList pat (cs ++ r)) = true
    rw [ih, Bool.or_true]

theorem pyStrip_ends (c d : Char) (l : List Char)
    (hc : isPyWs c = false) (hd : isPyWs d = false) :
    pyStrip ⟨c :: (l ++ [d])⟩ = ⟨c :: (l ++ [d])⟩ := by
  rw [pyStrip]
  congr 1
  rw [List.dropWhile_cons, if_neg (by simp [hc]),
    List.reverse_cons, List.reverse_append, List.reverse_singleton,
    List.singleton_append, List.cons_append, List.dropWhile_cons,
    if_neg (by simp [hd])]
  simp

theorem pyStrip_obj (fields : JsonFields) :
    pyStrip ⟨renderChars (Json.obj fields)⟩ = ⟨renderChars (Json.obj fields)⟩ :=
  pyStrip_ends '{' '}' (renderMembers fields) rfl rfl

theorem isFinalResponse_obj (fields : JsonFields) :
    isFinalResponse ⟨renderChars (Json.obj fields)⟩ = false := by
  rw [isFinalResponse, pyStartsWith, pyStrip_obj]
  show (('F' == '{') &&
    List.isPrefixOf ("inal Answer:".data) (renderMembers fields ++ ['}'])) = false
  rw [show ('F' == '{') = false from rfl, Bool.false_and]

/-- Dispatch of a rendered tool call: parsing recovers the object, the tool
is found in the registry, and the handler's result is serialized. -/
theorem dispatchStep_render (env : Env) (name : String) (args : JsonFields)
    (info : ToolInfo) (result : JsonFields)
    (hlook : toolLookup name = some info)
    (hrun : info.run env args = Except.ok result) :
    dispatchStep env (jsonDumps (toolCallJson name args)) =
      Except.ok (name, jsonDumps (Json.obj result)) := by
  have hparse : safe_json_parse (jsonDumps (toolCallJson name args)) =
      Except.ok (toolCallJson name args) := by
    have h := safe_json_parse_embed
      (jfields [("tool", Json.str name), ("args", Json.obj args)]) [] []
      (by simp) (by simp)
    simpa [jsonDumps, toolCallJson] using h
  rw [dispatchStep, hparse]
  have hd1 : dictGet (jfields [("tool", Json.str name),
      ("args", Json.obj args)]) "tool" = some (Json.str name) := rfl
  have hd2 : dictGet (jfields [("tool", Json.str name),
      ("args", Json.obj args)]) "args" = some (Json.obj args) := rfl
  simp [toolCallJson, hd1, hd2, hlook, hrun]

theorem classifyResponse_render (env : Env) (name : String) (args : JsonFields)
    (info : ToolInfo) (result : JsonFields)
    (hlook : toolLookup name = some info)
    (hrun : info.run env args = Except.ok result) :
    classifyResponse env (jsonDumps (toolCallJson name args)) =
      StepResult.next
        [⟨"assistant (tool call)", jsonDumps (toolCallJson name args)⟩,
          ⟨"tool_output", jsonDumps (Json.obj result)⟩]
        [Ev.assistantAppend (jsonDumps (toolCallJson name args)),
          Ev.toolInvoke name,
          Ev.toolOutputAppend (jsonDumps (Json.obj result))] := by
  rw [classifyResponse,
    if_neg (by simp [show isFinalResponse (jsonDumps (toolCallJson name args)) =
      false from isFinalResponse_obj _]),
    dispatchStep_render env name args info result hlook hrun]

set_option maxRecDepth 10000 in
/-- C7: for every state and every year outside 1901..2017, the rainfall
handler returns the domain-error mapping — equal to a constant in which the
network response does not occur, so no request is made — whose `error`
message notes that data is only available from 1901 to 2017 and whose
`source` is the rainfall source string; and when the model emits that tool
call, the step folds the serialized result into history as a `tool_output`
entry and the loop continues with the next step. -/
theorem C7_rainfall_year_guard (env : Env) (q : String) (n : Nat)
    (history : List HistoryEntry) (s : String) (y : Int)
    (hy : y < 1901 ∨ 2017 < y)
    (hllm : env.llm (composePrompt get_tool_definitions history q) =
      Except.ok (jsonDumps (toolCallJson "get_live_rainfall_data"
        (jfields [("state", Json.str s), ("year", Json.num y 0)])))) :
    get_live_rainfall_data env.net s y =
      jfields [("error", Json.str ("Invalid year " ++ intStr y ++
          ". Data is only available from 1901 to 2017.")),
        ("source", Json.str RAINFALL_SOURCE_NAME)] ∧
    containsSubstr ("Invalid year " ++ intStr y ++
        ". Data is only available from 1901 to 2017.")
      "only available from 1901 to 2017" = true ∧
    dictGet (get_live_rainfall_data env.net s y) "error" =
      some (Json.str ("Invalid year " ++ intStr y ++
        ". Data is only available from 1901 to 2017.")) ∧
    dictGet (get_live_rainfall_data env.net s y) "source" =
      some (Json.str RAINFALL_SOURCE_NAME) ∧
    classifyResponse env (jsonDumps (toolCallJson "get_live_rainfall_data"
        (jfields [("state", Json.str s), ("year", Json.num y 0)]))) =
      StepResult.next
        [⟨"assistant (tool call)", jsonDumps (toolCallJson
            "get_live_rainfall_data" (jfields [("state", Json.str s),
              ("year", Json.num y 0)]))⟩,
          ⟨"tool_output", jsonDumps (Json.obj
            (get_live_rainfall_data env.net s y))⟩]
        [Ev.assistantAppend (jsonDumps (toolCallJson "get_live_rainfall_data"
            (jfields [("state", Json.str s), ("year", Json.num y 0)]))),
          Ev.toolInvoke "get_live_rainfall_data",
          Ev.toolOutputAppend (jsonDumps (Json.obj
            (get_live_rainfall_data env.net s y)))] ∧
    runAgentLoop env q (n + 1) history =
      ((runAgentLoop env q n (history ++
          [⟨"assistant (tool call)", jsonDumps (toolCallJson
              "get_live_rainfall_data" (jfields [("state", Json.str s),
                ("year", Json.num y 0)]))⟩,
            ⟨"tool_output", jsonDumps (Json.obj
              (get_live_rainfall_data env.net s y))⟩])).1,
        Ev.llmCall :: ([Ev.assistantAppend (jsonDumps (toolCallJson
            "get_live_rainfall_data" (jfields [("state", Json.str s),
              ("year", Json.num y 0)]))),
          Ev.toolInvoke "get_live_rainfall_data",
          Ev.toolOutputAppend (jsonDumps (Json.obj
            (get_live_rainfall_data env.net s y)))] ++
          (runAgentLoop env q n (history ++
            [⟨"assistant (tool call)", jsonDumps (toolCallJson
                "get_live_rainfall_data" (jfields [("state", Json.str s),
                  ("year", Json.num y 0)]))⟩,
              ⟨"tool_output", jsonDumps (Json.obj
                (get_live_rainfall_data env.net s y))⟩])).2)) := by
  have h1 : get_live_rainfall_data env.net s y =
      jfields [("error", Json.str ("Invalid year " ++ intStr y ++
          ". Data is only available from 1901 to 2017.")),
        ("source", Json.str RAINFALL_SOURCE_NAME)] := by
    rw [get_live_rainfall_data.eq_def,
      if_pos (show ¬(1901 ≤ y ∧ y ≤ 2017) by omega)]
  have h2 : containsSubstr ("Invalid year " ++ intStr y ++
        ". Data is only available from 1901 to 2017.")
      "only available from 1901 to 2017" = true := by
    rw [containsSubstr]
    show containsSubList ("only available from 1901 to 2017".data)
      (("Invalid year " ++ intStr y).data ++
        ". Data is only available from 1901 to 2017.".data) = true
    exact containsSubList_append_right _ _ _ (by decide)
  have hcl : classifyResponse env (jsonDumps (toolCallJson
        "get_live_rainfall_data" (jfields [("state", Json.str s),
          ("year", Json.num y 0)]))) =
      StepResult.next
        [⟨"assistant (tool call)", jsonDumps (toolCallJson
            "get_live_rainfall_data" (jfields [("state", Json.str s),
              ("year", Json.num y 0)]))⟩,
          ⟨"tool_output", jsonDumps (Json.obj
            (get_live_rainfall_data env.net s y))⟩]
        [Ev.assistantAppend (jsonDumps (toolCallJson "get_live_rainfall_data"
            (jfields [("state", Json.str s), ("year", Json.num y 0)]))),
          Ev.toolInvoke "get_live_rainfall_data",
          Ev.toolOutputAppend (jsonDumps (Json.obj
            (get_live_rainfall_data env.net s y)))] :=
    classifyResponse_render env "get_live_rainfall_data"
      (jfields [("state", Json.str s), ("year", Json.num y 0)])
      ((TOOLS.get ⟨0, by decide⟩).2) (get_live_rainfall_data env.net s y)
      rfl rfl
  refine ⟨h1, h2, by rw [h1]; rfl, by rw [h1]; rfl, hcl,
    runAgentLoop_continue env q n history _ _ _ hllm hcl⟩

/-- The rendered rainfall call a witness model emits. -/
def rainfall1850Call : String :=
  jsonDumps (toolCallJson "get_live_rainfall_data"
    (jfields [("state", Json.str "Kerala"), ("year", Json.num 1850 0)]))

set_option maxRecDepth 10000 in
theorem C7_rainfall_year_guard_witness :
    get_live_rainfall_data (constEnv rainfall1850Call).net "Kerala" 1850 =
      jfields [("error", Json.str ("Invalid year " ++ intStr 1850 ++
          ". Data is only available from 1901 to 2017.")),
        ("source", Json.str RAINFALL_SOURCE_NAME)] ∧
    containsSubstr ("Invalid year " ++ intStr 1850 ++
        ". Data is only available from 1901 to 2017.")
      "only available from 1901 to 2017" = true ∧
    dictGet (get_live_rainfall_data (constEnv rainfall1850Call).net "Kerala" 1850) "error" =
      some (Json.str ("Invalid year " ++ intStr 1850 ++
        ". Data is only available from 1901 to 2017.")) ∧
    dictGet (get_live_rainfall_data (constEnv rainfall1850Call).net "Kerala" 1850) "source" =
      some (Json.str RAINFALL_SOURCE_NAME) ∧
    classifyResponse (constEnv rainfall1850Call) (jsonDumps (toolCallJson "get_live_rainfall_data"
        (jfields [("state", Json.str "Kerala"), ("year", Json.num 1850 0)]))) =
      StepResult.next
        [⟨"assistant (tool call)", jsonDumps (toolCallJson
            "get_live_rainfall_data" (jfields [("state", Json.str "Kerala"),
              ("year", Json.num 1850 0)]))⟩,
          ⟨"tool_output", jsonDumps (Json.obj
            (get_live_rainfall_data (constEnv rainfall1850Call).net "Kerala" 1850))⟩]
        [Ev.assistantAppend (jsonDumps (toolCallJson "get_live_rainfall_data"
            (jfields [("state", Json.str "Kerala"), ("year", Json.num 1850 0)]))),
          Ev.toolInvoke "get_live_rainfall_data",
          Ev.toolOutputAppend (jsonDumps (Json.obj
            (get_live_rainfall_data (constEnv rainfall1850Call).net "Kerala" 1850)))] ∧
    runAgentLoop (constEnv rainfall1850Call) "q" (2 + 1) [] =
      ((runAgentLoop (constEnv rainfall1850Call) "q" 2 ([] ++
          [⟨"assistant (tool call)", jsonDumps (toolCallJson
              "get_live_rainfall_data" (jfields [("state", Json.str "Kerala"),
                ("year", Json.num 1850 0)]))⟩,
            ⟨"tool_output", jsonDumps (Json.obj
              (get_live_rainfall_data (constEnv rainfall1850Call).net "Kerala" 1850))⟩])).1,
        Ev.llmCall :: ([Ev.assistantAppend (jsonDumps (toolCallJson
            "get_live_rainfall_data" (jfields [("state", Json.str "Kerala"),
              ("year", Json.num 1850 0)]))),
          Ev.toolInvoke "get_live_rainfall_data",
          Ev.toolOutputAppend (jsonDumps (Json.obj
            (get_live_rainfall_data (constEnv rainfall1850Call).net "Kerala" 1850)))] ++
          (runAgentLoop (constEnv rainfall1850Call) "q" 2 ([] ++
            [⟨"assistant (tool call)", jsonDumps (toolCallJson
                "get_live_rainfall_data" (jfields [("state", Json.str "Kerala"),
                  ("year", Json.num 1850 0)]))⟩,
              ⟨"tool_output", jsonDumps (Json.obj
                (get_live_rainfall_data (constEnv rainfall1850Call).net "Kerala" 1850))⟩])).2)) :=
  C7_rainfall_year_guard (constEnv rainfall1850Call) "q" 2 [] "Kerala" 1850
    (Or.inl (by decide)) rfl

/-! ## C8: every handler result carries a `source` string -/

theorem get_live_rainfall_data_source (net : Except String (List RainRecord))
    (s : String) (y : Int) :
    ∃ t, dictGet (get_live_rainfall_data net s y) "source" =
      some (Json.str t) := by
  rw [get_live_rainfall_data.eq_def]
  split
  · exact ⟨_, rfl⟩
  · split
    · exact ⟨_, rfl⟩
    · split
      · exact ⟨_, rfl⟩
      · split
        · exact ⟨_, rfl⟩
        · exact ⟨_, rfl⟩

theorem get_local_agriculture_data_source (df : List AgriRow) (s : String)
    (y : Int) (c : Option String) (n : Int) :
    ∃ t, dictGet (get_local_agriculture_data df s y c n) "source" =
      some (Json.str t) := by
  simp only [get_local_agriculture_data]
  split
  · exact ⟨_, rfl⟩
  · split
    · split
      · exact ⟨_, rfl⟩
      · exact ⟨_, rfl⟩
    · exact ⟨_, rfl⟩

theorem get_district_production_source (df : List AgriRow) (hd : Bool)
    (s c : String) (y : Int) (o : String) :
    ∃ t, dictGet (get_district_production df hd s c y o) "source" =
      some (Json.str t) := by
  simp only [get_district_production]
  split
  · exact ⟨_, rfl⟩
  · split
    · exact ⟨_, rfl⟩
    · split
      · exact ⟨_, rfl⟩
      · split <;> exact ⟨_, rfl⟩

theorem get_production_trend_source
    (rx : String → Except String (String → Bool)) (df : List AgriRow)
    (s c : String) (a b : Int) :
    ∃ t, dictGet (get_production_trend rx df s c a b) "source" =
      some (Json.str t) := by
  simp only [get_production_trend]
  split
  · exact ⟨_, rfl⟩
  · split
    · exact ⟨_, rfl⟩
    · split
      · exact ⟨_, rfl⟩
      · exact ⟨_, rfl⟩

theorem get_rainfall_trend_source (net : Except String (List RainRecord))
    (s : String) (a b : Int) :
    ∃ t, dictGet (get_rainfall_trend net s a b) "source" =
      some (Json.str t) :=
  ⟨RAINFALL_SOURCE_NAME, rfl⟩

/-- C8: whenever a registered tool's bound handler returns a result mapping
(success or handler-originated error alike), the mapping contains a
`source` key holding a string. -/
theorem C8_source_invariant (name : String) (env : Env) (args : JsonFields)
    (info : ToolInfo) (result : JsonFields)
    (hlook : toolLookup name = some info)
    (hrun : info.run env args = Except.ok result) :
    ∃ t, dictGet result "source" = some (Json.str t) := by
  rw [toolLookup, Option.map_eq_some'] at hlook
  obtain ⟨p, hfind, hinfo⟩ := hlook
  have hmem : p ∈ TOOLS := List.mem_of_find?_eq_some hfind
  subst hinfo
  simp only [TOOLS, List.mem_cons, List.not_mem_nil, or_false] at hmem
  rcases hmem with h | h | h | h | h <;> subst h <;> dsimp only at hrun
  · split at hrun
    · exact absurd hrun (by simp)
    · split at hrun
      · injection hrun with h
        subst h
        exact get_live_rainfall_data_source _ _ _
      all_goals exact absurd hrun (by simp)
  · split at hrun
    · exact absurd hrun (by simp)
    · split at hrun
      · injection hrun with h
        subst h
        exact get_local_agriculture_data_source _ _ _ _ _
      all_goals exact absurd hrun (by simp)
  · split at hrun
    · exact absurd hrun (by simp)
    · split at hrun
      · injection hrun with h
        subst h
        exact get_district_production_source _ _ _ _ _ _
      all_goals exact absurd hrun (by simp)
  · split at hrun
    · exact absurd hrun (by simp)
    · split at hrun
      · injection hrun with h
        subst h
        exact get_production_trend_source _ _ _ _ _ _
      all_goals exact absurd hrun (by simp)
  · split at hrun
    · exact absurd hrun (by simp)
    · split at hrun
      · injection hrun with h
        subst h
        exact get_rainfall_trend_source _ _ _ _
      all_goals exact absurd hrun (by simp)

set_option maxRecDepth 10000 in
theorem C8_source_invariant_witness :
    ∃ t, dictGet (get_production_trend (constEnv "x").rx (constEnv "x").df
      "Punjab" "Rice" 2000 2001) "source" = some (Json.str t) :=
  C8_source_invariant "get_production_trend" (constEnv "x")
    (jfields [("state", Json.str "Punjab"), ("crop", Json.str "Rice"),
      ("start_year", Json.num 2000 0), ("end_year", Json.num 2001 0)])
    ((TOOLS.get ⟨3, by decide⟩).2)
    (get_production_trend (constEnv "x").rx (constEnv "x").df
      "Punjab" "Rice" 2000 2001)
    rfl rfl

/-! ## C9: the rendered tool catalog -/

/-- Index of the first occurrence of `pat` at or after offset `acc`
(accumulator form of Python `str.find` over the remaining text). -/
def idxFrom (pat : List Char) : List Char → Nat → Option Nat
  | [], acc => if pat.isPrefixOf ([] : List Char) then some acc else none
  | c :: rest, acc =>
    if pat.isPrefixOf (c :: rest) then some acc else idxFrom pat rest (acc + 1)

set_option maxRecDepth 8000 in
/-- C9: the catalog rendering is a pure function of the fixed registry, so
two calls without a registry mutation denote the same string; its output
holds every registered tool's labelled name block, description and rendered
argument schema exactly once each; and the five name labels first occur at
strictly increasing positions, in registration order. -/
theorem C9_catalog_stable_complete :
    get_tool_definitions = get_tool_definitions ∧
    (∀ p ∈ TOOLS,
      countSubstr get_tool_definitions ("- Tool: `" ++ p.1 ++ "`") = 1 ∧
      countSubstr get_tool_definitions p.2.desc = 1 ∧
      countSubstr get_tool_definitions (jsonDumps p.2.schema) = 1) ∧
    idxFrom ("- Tool: `" ++ (TOOLS.get ⟨0, by decide⟩).1 ++ "`").data
      get_tool_definitions.data 0 = some 0 ∧
    idxFrom ("- Tool: `" ++ (TOOLS.get ⟨1, by decide⟩).1 ++ "`").data
      get_tool_definitions.data 0 = some 203 ∧
    idxFrom ("- Tool: `" ++ (TOOLS.get ⟨2, by decide⟩).1 ++ "`").data
      get_tool_definitions.data 0 = some 529 ∧
    idxFrom ("- Tool: `" ++ (TOOLS.get ⟨3, by decide⟩).1 ++ "`").data
      get_tool_definitions.data 0 = some 842 ∧
    idxFrom ("- Tool: `" ++ (TOOLS.get ⟨4, by decide⟩).1 ++ "`").data
      get_tool_definitions.data 0 = some 1097 ∧
    (0 : Nat) < 203 ∧ (203 : Nat) < 529 ∧ (529 : Nat) < 842 ∧
      (842 : Nat) < 1097 := by
  refine ⟨rfl, ?_, by decide, by decide, by decide, by decide, by decide,
    by decide, by decide, by decide, by decide⟩
  intro p hp
  fin_cases hp <;> exact ⟨by decide, by decide, by decide⟩

set_option maxRecDepth 8000 in
theorem C9_catalog_witness :
    countSubstr get_tool_definitions
      ("- Tool: `" ++ (TOOLS.get ⟨0, by decide⟩).1 ++ "`") = 1 ∧
    countSubstr get_tool_definitions (TOOLS.get ⟨0, by decide⟩).2.desc = 1 ∧
    countSubstr get_tool_definitions
      (jsonDumps (TOOLS.get ⟨0, by decide⟩).2.schema) = 1 :=
  C9_catalog_stable_complete.2.1 (TOOLS.get ⟨0, by decide⟩)
    (List.get_mem TOOLS 0 (by decide))

/-! ## C10: total year coverage of the production trend -/

theorem jlist_length (l : List Json) : (jlist l).length = l.length := by
  induction l with
  | nil => rfl
  | cons x xs ih => simp [jlist, JsonList.length, ih]

theorem jlist_get? (l : List Json) (i : Nat) : (jlist l).get? i = l.get? i := by
  induction l generalizing i with
  | nil => cases i <;> rfl
  | cons x xs ih =>
    cases i with
    | zero => rfl
    | succ j => simpa [jlist, JsonList.get?] using ih j

theorem rangeInts_length (a b : Int) :
    (rangeInts a b).length = (b + 1 - a).toNat := by
  rw [rangeInts, List.length_map, List.length_range]

theorem rangeInts_get? (a b : Int) (i : Nat) (h : i < (b + 1 - a).toNat) :
    (rangeInts a b).get? i = some (a + i) := by
  rw [rangeInts, List.get?_map, List.get?_range h]
  rfl

/-- The per-year entry of the trend list, for compiled state and crop
matchers: the year and its rounded production total, zero when no row
matches. -/
def trendEntry (ms mc : String → Bool) (df : List AgriRow) (year : Int) :
    Json :=
  Json.obj (jfields [("year", Json.num year 0),
    ("production_tonnes", round2Json
      (if (trendYearRows ms mc df year).isEmpty then Dec.mk 0 0
       else Dec.sum ((trendYearRows ms mc df year).map
         (fun r => r.production_tonnes))).toRat)])

theorem round2Json_dec_zero : round2Json ((Dec.mk 0 0).toRat) = Json.num 0 2 := by
  norm_num [round2Json, ratRound2, Dec.toRat]

theorem rangeInts_not_empty (a b : Int) (hab : a ≤ b) :
    (rangeInts a b).isEmpty = false := by
  have h1 : (rangeInts a b).length = (b + 1 - a).toNat := rangeInts_length a b
  cases hE : rangeInts a b with
  | nil =>
    rw [hE] at h1
    simp at h1
    omega
  | cons x xs => rfl

/-- A data set with rows for 2000 and 2002 and a gap at 2001. -/
def dfGap : List AgriRow :=
  [⟨"Punjab", "Amritsar", "Rice", 2000, ⟨5, 0⟩⟩,
   ⟨"Punjab", "Ludhiana", "Rice", 2002, ⟨7, 0⟩⟩]

set_option maxRecDepth 10000 in
/-- C10 counterexample: the claim quantifies over EVERY state and crop, but
`.str.contains` compiles its argument as a regex, and the state `"("` is a
malformed pattern: `re.compile` raises `re.error`, which the handler
catches with `except Exception`, and the result is the unexpected-error
mapping with NO `trend` list — over a non-empty year range and a data set
that has matching rows.  (`reOracle` maps `"("` to exactly the `re.error`
text Python raises for it.) -/
theorem C10_counterexample :
    reLiteral "(" = false ∧
    reOracle "(" =
      Except.error "missing ), unterminated subpattern at position 0" ∧
    get_production_trend reOracle dfGap "(" "Rice" 2000 2002 =
      jfields [("error", Json.str
          ("Unexpected error in get_production_trend: " ++
            "missing ), unterminated subpattern at position 0")),
        ("source", Json.str AGRICULTURE_SOURCE_NAME)] ∧
    dictGet (get_production_trend reOracle dfGap "(" "Rice" 2000 2002)
      "trend" = none ∧
    dictGet (get_production_trend reOracle dfGap "(" "Rice" 2000 2002)
      "error" ≠ none :=
  ⟨by decide, rfl, rfl, rfl, by decide⟩

/-- C10 (amended): for every data set, state and crop WHOSE PATTERNS
COMPILE (the regex compiler returns matchers rather than raising), and
every year range with `start_year ≤ end_year`, the trend result carries no
`error` field; its `trend` list has exactly one entry per year of the
inclusive range, the entry at index `i` being for year `start_year + i`
(ascending order); and a year with no matching rows yields production 0.00
instead of an error. -/
theorem C10_trend_full_range
    (rx : String → Except String (String → Bool)) (df : List AgriRow)
    (state crop : String) (ms mc : String → Bool) (a b : Int)
    (hab : a ≤ b)
    (hstate : rx state = Except.ok ms) (hcrop : rx crop = Except.ok mc) :
    dictGet (get_production_trend rx df state crop a b) "error" = none ∧
    dictGet (get_production_trend rx df state crop a b) "trend" =
      some (Json.arr (jlist ((rangeInts a b).map
        (fun y => trendEntry ms mc df y)))) ∧
    (jlist ((rangeInts a b).map (fun y => trendEntry ms mc df y))).length
      = (b - a).toNat + 1 ∧
    (∀ i : Nat, i < (b - a).toNat + 1 →
      (jlist ((rangeInts a b).map
          (fun y => trendEntry ms mc df y))).get? i
        = some (trendEntry ms mc df (a + i))) ∧
    (∀ i : Nat, i < (b - a).toNat + 1 →
      trendYearRows ms mc df (a + i) = [] →
      trendEntry ms mc df (a + i) =
        Json.obj (jfields [("year", Json.num (a + i) 0),
          ("production_tonnes", Json.num 0 2)])) := by
  have hmain : get_production_trend rx df state crop a b =
      jfields [("state", Json.str state), ("crop", Json.str crop),
        ("trend", Json.arr (jlist ((rangeInts a b).map
          (fun y => trendEntry ms mc df y)))),
        ("source", Json.str AGRICULTURE_SOURCE_NAME)] := by
    rw [get_production_trend.eq_def,
      if_neg (by simp [rangeInts_not_empty a b hab]), hstate, hcrop]
    rfl
  refine ⟨by rw [hmain]; rfl, by rw [hmain]; rfl, ?_, ?_, ?_⟩
  · rw [jlist_length, List.length_map, rangeInts_length]
    omega
  · intro i hi
    rw [jlist_get?, List.get?_map, rangeInts_get? a b i (by omega)]
    rfl
  · intro i hi hrows
    simp [trendEntry, hrows, round2Json_dec_zero]

/-- The matcher `re.compile("Punjab", re.IGNORECASE)` denotes. -/
def punjabMatch : String → Bool := fun hay =>
  containsSubstr (pyLower hay) (pyLower "Punjab")

/-- The matcher `re.compile("Rice", re.IGNORECASE)` denotes. -/
def riceMatch : String → Bool := fun hay =>
  containsSubstr (pyLower hay) (pyLower "Rice")

theorem C10_trend_full_range_witness :
    dictGet (get_production_trend reOracle dfGap "Punjab" "Rice" 2000 2002)
      "error" = none ∧
    (jlist ((rangeInts 2000 2002).map
        (fun y => trendEntry punjabMatch riceMatch dfGap y))).length =
      ((2002 : Int) - 2000).toNat + 1 ∧
    trendEntry punjabMatch riceMatch dfGap ((2000 : Int) + (1 : Nat)) =
      Json.obj (jfields [("year", Json.num ((2000 : Int) + (1 : Nat)) 0),
        ("production_tonnes", Json.num 0 2)]) :=
  ⟨(C10_trend_full_range reOracle dfGap "Punjab" "Rice"
      punjabMatch riceMatch 2000 2002 (by decide) rfl rfl).1,
    (C10_trend_full_range reOracle dfGap "Punjab" "Rice"
      punjabMatch riceMatch 2000 2002 (by decide) rfl rfl).2.2.1,
    (C10_trend_full_range reOracle dfGap "Punjab" "Rice"
      punjabMatch riceMatch 2000 2002 (by decide) rfl rfl).2.2.2.2
      1 (by decide) rfl⟩
